import Mathlib

/-!
Verification of `custom_exporter.py`: a shallow embedding of the exporter's
data model and collector logic, followed by theorems settling the frozen
claims about it.

Modelling conventions:
* Python floats are modelled as rationals (`ℚ`); none of the verified
  properties depend on binary floating-point rounding.
* JSON-decoded Python values are modelled by the inductive `Json` below.
  A JSON string is represented by its text together with the results of the
  two standard-library interpretations the exporter applies to strings:
  `float(s)` (the `conv` component) and
  `datetime.fromisoformat(s.replace("Z", "+00:00"))` (the `iso` component).
  Both library calls are external to the repository, so they are modelled
  as oracles attached to the string value.
* Wall-clock instants produced by `time.time()` are rationals; UTC instants
  used by the temporal selector are integers (seconds since the epoch).
* Exceptions are modelled explicitly: helper functions that can raise
  return `Except Unit _`, and each collector returns a `Bool` that is `true`
  exactly when an exception escapes the collector to the scheduler loop.
-/

/-- Result of `datetime.fromisoformat` on a timestamp string (after the
`"Z" → "+00:00"` substitution done by `_parse_iso_ts`): parsing can fail,
produce a naive datetime (wall-clock seconds, no offset), or produce an
offset-aware datetime (wall-clock seconds plus its UTC offset in seconds). -/
inductive IsoParse where
  | fail
  | naive (wall : Int)
  | aware (wall : Int) (off : Int)
deriving DecidableEq, Repr

/-- A JSON-decoded Python value as produced by `requests.Response.json()`. -/
inductive Json where
  | null
  | bool (b : Bool)
  | num (x : ℚ)
  | str (s : String) (conv : Option ℚ) (iso : IsoParse)
  | arr (xs : List Json)
  | obj (fields : List (String × Json))

/-- Python truthiness of a JSON-decoded value (`bool(v)`). -/
def jtruthy : Json → Bool
  | Json.null => false
  | Json.bool b => b
  | Json.num x => if x = 0 then false else true
  | Json.str s _ _ => if s = "" then false else true
  | Json.arr xs => if xs.isEmpty then false else true
  | Json.obj fs => if fs.isEmpty then false else true

/-- Python `float(v)` on a JSON-decoded value: `none` means the conversion
raises (`TypeError`/`ValueError`). Numbers convert to themselves, booleans
to 0/1, strings according to their text (the `conv` oracle); `None`, lists
and dicts raise. -/
def pyFloat : Json → Option ℚ
  | Json.num x => some x
  | Json.bool b => some (if b then 1 else 0)
  | Json.str _ conv _ => conv
  | _ => none

/-- Whether the value is Python `None`. -/
def jIsNull : Json → Bool
  | Json.null => true
  | _ => false

/-- Substring test used for Python's `key in someString`. -/
def strContains (s pat : String) : Bool := 2 ≤ (s.splitOn pat).length

/-- Python membership test `key in v`. For dicts it tests the keys, for
lists it tests `==` against the elements, for strings it is a substring
test; for every other value it raises `TypeError` (`.error ()`). -/
def jin (key : String) : Json → Except Unit Bool
  | Json.obj fs => Except.ok (fs.lookup key).isSome
  | Json.arr xs =>
      Except.ok (xs.any (fun j =>
        match j with
        | Json.str s _ _ => s = key
        | _ => false))
  | Json.str s _ _ => Except.ok (strContains s key)
  | _ => Except.error ()

/-- Python indexing `v[key]` with a string key: defined for dicts holding
the key, raising (`KeyError`/`TypeError`) otherwise. -/
def jindexStr (v : Json) (key : String) : Except Unit Json :=
  match v with
  | Json.obj fs =>
      match fs.lookup key with
      | some w => Except.ok w
      | none => Except.error ()
  | _ => Except.error ()

/-- `dict.get k` on the fields of a JSON object (`none` models Python
`None` for a missing key). -/
def dictGet (fs : List (String × Json)) (k : String) : Option Json :=
  fs.lookup k

/-- `_parse_iso_ts`: parse a timestamp value into an absolute UTC instant.
Non-strings make `ts.replace` raise inside the function's `try`, giving
`None`. A naive datetime is interpreted as UTC (the instant is its wall
time); an offset-aware datetime is converted to UTC (`astimezone`), so its
instant is the wall time minus the offset. -/
def parse_iso_ts (ts : Json) : Option Int :=
  match ts with
  | Json.str _ _ iso =>
      match iso with
      | IsoParse.fail => none
      | IsoParse.naive w => some w
      | IsoParse.aware w off => some (w - off)
  | _ => none

/-- The backward scan of `_last_past_value`, expressed on the reversed
list of `(timestamp, value)` pairs (the Python loop runs from the last
index down to the first). A timestamp that fails to parse or is in the
future is skipped; a past timestamp with a `None` value is skipped; a past
timestamp with a non-`None` value returns `float(v)` on success and `None`
(aborting the scan) when `float(v)` raises. -/
def lpvScan : List (Json × Json) → Int → Option ℚ
  | [], _ => none
  | (t, v) :: rest, now =>
      match parse_iso_ts t with
      | none => lpvScan rest now
      | some i =>
          if i ≤ now then
            match v with
            | Json.null => lpvScan rest now
            | w =>
                match pyFloat w with
                | some x => some x
                | none => none
          else lpvScan rest now

/-- `_last_past_value hourly key`: validate that `hourly.get("time")` and
`hourly.get(key)` are lists of equal non-zero length, then scan backward
for the most recent value whose timestamp is ≤ `now`. -/
def last_past_value (hourly : List (String × Json)) (key : String)
    (nowUtc : Int) : Option ℚ :=
  match dictGet hourly "time", dictGet hourly key with
  | some (Json.arr times), some (Json.arr values) =>
      if (times.length == values.length) && !times.isEmpty then
        lpvScan ((times.zip values).reverse) nowUtc
      else none
  | _, _ => none

/-- A key-indexed store backing the labelled Prometheus metric families:
setting a label's value replaces it in place (or appends a fresh entry the
first time the label is observed). -/
def setAssoc {α : Type} : List (String × α) → String → α → List (String × α)
  | [], k, v => [(k, v)]
  | (k', w) :: rest, k, v =>
      if k' = k then (k', v) :: rest else (k', w) :: setAssoc rest k v

/-- Increment a labelled counter (`Counter.labels(k).inc()`); a label not
seen before starts from zero. -/
def bumpAssoc : List (String × Nat) → String → List (String × Nat)
  | [], k => [(k, 1)]
  | (k', n) :: rest, k =>
      if k' = k then (k', n + 1) :: rest else (k', n) :: bumpAssoc rest k

/-- Record one observation into a labelled latency summary
(`Summary.labels(k).observe(x)`). -/
def observeAssoc : List (String × List ℚ) → String → ℚ → List (String × List ℚ)
  | [], k, x => [(k, [x])]
  | (k', xs) :: rest, k, x =>
      if k' = k then (k', x :: xs) :: rest else (k', xs) :: observeAssoc rest k x

/-- Current value of a labelled counter (zero when the label was never
incremented). -/
def countOf (l : List (String × Nat)) (k : String) : Nat :=
  match l.lookup k with
  | some n => n
  | none => 0

/-- The exporter's mutable state: every gauge starts absent (`none`), the
labelled families start empty, and the module global `LAST_SO_POLL`
starts at 0. -/
structure ExporterState where
  weather_temperature_c : Option ℚ
  weather_wind_speed_ms : Option ℚ
  weather_humidity_percent : Option ℚ
  air_pm10_ugm3 : Option ℚ
  air_pm25_ugm3 : Option ℚ
  air_us_aqi : Option ℚ
  fx_usd_kzt : Option ℚ
  fx_eur_kzt : Option ℚ
  crypto_btc_usd : Option ℚ
  crypto_eth_usd : Option ℚ
  so_tag_count : List (String × ℚ)
  api_success_total : List (String × Nat)
  api_fail_total : List (String × Nat)
  api_latency_obs : List (String × List ℚ)
  api_last_scrape : List (String × ℚ)
  last_so_poll : ℚ
deriving DecidableEq, Repr

/-- The state at process start: all metric points absent. -/
def startState : ExporterState :=
  { weather_temperature_c := none
    weather_wind_speed_ms := none
    weather_humidity_percent := none
    air_pm10_ugm3 := none
    air_pm25_ugm3 := none
    air_us_aqi := none
    fx_usd_kzt := none
    fx_eur_kzt := none
    crypto_btc_usd := none
    crypto_eth_usd := none
    so_tag_count := []
    api_success_total := []
    api_fail_total := []
    api_latency_obs := []
    api_last_scrape := []
    last_so_poll := 0 }

/-- `api_success_total.labels(api).inc()`. -/
def incSuccess (m : ExporterState) (api : String) : ExporterState :=
  { m with api_success_total := bumpAssoc m.api_success_total api }

/-- `api_fail_total.labels(api).inc()`. -/
def incFail (m : ExporterState) (api : String) : ExporterState :=
  { m with api_fail_total := bumpAssoc m.api_fail_total api }

/-- `api_latency_seconds.labels(api).observe(x)`. -/
def observeLatency (m : ExporterState) (api : String) (x : ℚ) : ExporterState :=
  { m with api_latency_obs := observeAssoc m.api_latency_obs api x }

/-- `api_last_scrape_timestamp_seconds.labels(api).set(t)`. -/
def setScrape (m : ExporterState) (api : String) (t : ℚ) : ExporterState :=
  { m with api_last_scrape := setAssoc m.api_last_scrape api t }

/-- Outcome of the `session.get` + `raise_for_status` + `json()` sequence
performed inside `timed_get`'s `try` (the network and the `requests`
library are external): either a decoded payload, or an exception at some
stage, carrying an opaque error token. -/
inductive FetchOutcome where
  | ok (data : Json)
  | fail (e : Nat)

/-- `timed_get`: one timed HTTP GET + JSON decode. On success it increments
the source's success counter and returns the payload with no error; on any
failure the blanket `except` increments the failure counter and returns
`None` plus the error. The elapsed time is an input (the clock is
external) and is returned unchanged. The function is total: no failure
mode escapes to the caller. -/
def timed_get (m : ExporterState) (api : String) (fo : FetchOutcome)
    (elapsed : ℚ) : (Option Json × ℚ × Option Nat) × ExporterState :=
  match fo with
  | FetchOutcome.ok d => ((some d, elapsed, none), incSuccess m api)
  | FetchOutcome.fail e => ((none, elapsed, some e), incFail m api)

/-- One optional field of a `current` section, weather style (no `None`
check): `"k" in c` followed by `float(c[k])`. `.error ()` models an
exception (caught by the collector's `try`, aborting the remaining
fields); `.ok none` means the key is absent (field skipped); `.ok (some x)`
means the field parsed to `x`. A `None` value raises here because
`float(None)` raises. -/
def getFloatField (c : Json) (k : String) : Except Unit (Option ℚ) :=
  match jin k c with
  | Except.error _ => Except.error ()
  | Except.ok false => Except.ok none
  | Except.ok true =>
      match jindexStr c k with
      | Except.error _ => Except.error ()
      | Except.ok v =>
          match pyFloat v with
          | none => Except.error ()
          | some x => Except.ok (some x)

/-- One optional field with a `None` check (`"k" in c and c[k] is not
None`), as used by the air-quality `current` section, the FX rates and the
crypto tickers: a `None` value is skipped rather than raising. -/
def getFloatFieldNN (c : Json) (k : String) : Except Unit (Option ℚ) :=
  match jin k c with
  | Except.error _ => Except.error ()
  | Except.ok false => Except.ok none
  | Except.ok true =>
      match jindexStr c k with
      | Except.error _ => Except.error ()
      | Except.ok Json.null => Except.ok none
      | Except.ok v =>
          match pyFloat v with
          | none => Except.error ()
          | some x => Except.ok (some x)

/-- Arguments of one `poll_openmeteo_weather` call: the fetch outcome, the
measured latency and the `time.time()` read for the last-scrape gauge. -/
structure WeatherArgs where
  fo : FetchOutcome
  elapsed : ℚ
  now : ℚ

/-- The `try` block of `poll_openmeteo_weather`: the three fields are
processed in source order inside a single `try`, so an exception on one
field (a missing key never raises, but a `None` or non-numeric value does)
aborts the remaining fields while keeping the updates already made. -/
def weatherParseCurrent (m : ExporterState) (c : Json) : ExporterState :=
  match getFloatField c "temperature_2m" with
  | Except.error _ => m
  | Except.ok r1 =>
      let m1 := match r1 with
        | some x => { m with weather_temperature_c := some x }
        | none => m
      match getFloatField c "wind_speed_10m" with
      | Except.error _ => m1
      | Except.ok r2 =>
          let m2 := match r2 with
            | some x => { m1 with weather_wind_speed_ms := some (x / (18 / 5)) }
            | none => m1
          match getFloatField c "relative_humidity_2m" with
          | Except.error _ => m2
          | Except.ok r3 =>
              match r3 with
              | some x => { m2 with weather_humidity_percent := some x }
              | none => m2

/-- `poll_openmeteo_weather`: fetch, record latency and last-scrape time,
then either return early (error / falsy payload / no `current` key) or
parse the `current` section. The returned `Bool` is `true` when an
exception escapes the collector (the membership test or the indexing of
`data["current"]` on a truthy non-dict payload). -/
def poll_openmeteo_weather (m : ExporterState) (a : WeatherArgs) :
    ExporterState × Bool :=
  match timed_get m "openmeteo_weather" a.fo a.elapsed with
  | ((data, latency, err), m1) =>
      let m2 := setScrape (observeLatency m1 "openmeteo_weather" latency)
        "openmeteo_weather" a.now
      match err, data with
      | some _, _ => (m2, false)
      | none, none => (m2, false)
      | none, some d =>
          if jtruthy d then
            match jin "current" d with
            | Except.error _ => (m2, true)
            | Except.ok false => (m2, false)
            | Except.ok true =>
                match jindexStr d "current" with
                | Except.error _ => (m2, true)
                | Except.ok c => (weatherParseCurrent m2 c, false)
          else (m2, false)

/-- Arguments of one `poll_openmeteo_air` call: outcomes, latencies and
clock reads for the current-conditions request and the (potential) hourly
request, plus the `datetime.now(timezone.utc)` instant used by the
temporal selector. -/
structure AirArgs where
  cur : FetchOutcome
  e1 : ℚ
  now1 : ℚ
  hr : FetchOutcome
  e2 : ℚ
  now2 : ℚ
  nowUtc : Int

/-- The `try` block of the air-quality `current` branch. The second
component is `true` when all three fields were processed without an
exception, i.e. the `return` at the end of the `try` is reached and no
hourly fallback happens. -/
def airParseCurrent (m : ExporterState) (c : Json) : ExporterState × Bool :=
  match getFloatFieldNN c "pm10" with
  | Except.error _ => (m, false)
  | Except.ok r1 =>
      let m1 := match r1 with
        | some x => { m with air_pm10_ugm3 := some x }
        | none => m
      match getFloatFieldNN c "pm2_5" with
      | Except.error _ => (m1, false)
      | Except.ok r2 =>
          let m2 := match r2 with
            | some x => { m1 with air_pm25_ugm3 := some x }
            | none => m1
          match getFloatFieldNN c "us_aqi" with
          | Except.error _ => (m2, false)
          | Except.ok r3 =>
              (match r3 with
               | some x => { m2 with air_us_aqi := some x }
               | none => m2, true)

/-- Whether the air-quality `current` section parses without an exception
(so that the `return` inside the `try` is reached). -/
def airCurrentOk (c : Json) : Bool :=
  match getFloatFieldNN c "pm10" with
  | Except.error _ => false
  | Except.ok _ =>
      match getFloatFieldNN c "pm2_5" with
      | Except.error _ => false
      | Except.ok _ =>
          match getFloatFieldNN c "us_aqi" with
          | Except.error _ => false
          | Except.ok _ => true

/-- Publish the temporal-selector output per field from a well-formed
hourly dict (the `if v is not None` guards of `poll_openmeteo_air`). -/
def airSetHourly (m : ExporterState) (fs : List (String × Json))
    (nowUtc : Int) : ExporterState :=
  let v10 := last_past_value fs "pm10" nowUtc
  let v25 := last_past_value fs "pm2_5" nowUtc
  let vaq := last_past_value fs "us_aqi" nowUtc
  { m with
    air_pm10_ugm3 := match v10 with | some x => some x | none => m.air_pm10_ugm3
    air_pm25_ugm3 := match v25 with | some x => some x | none => m.air_pm25_ugm3
    air_us_aqi := match vaq with | some x => some x | none => m.air_us_aqi }

/-- The hourly fallback of `poll_openmeteo_air`: fetch the hourly series,
record latency and last-scrape, and on a truthy dict payload holding
`"hourly"` run the temporal selector per field. The `Bool` is `true` when
an exception escapes (membership test or `data["hourly"]` indexing on
non-dict shapes); a non-dict `hourly` value raises inside the collector's
`try` and is caught (no metric update). -/
def air_hourly (m : ExporterState) (a : AirArgs) : ExporterState × Bool :=
  match timed_get m "openmeteo_air" a.hr a.e2 with
  | ((data, latency, err), m1) =>
      let m2 := setScrape (observeLatency m1 "openmeteo_air" latency)
        "openmeteo_air" a.now2
      match err, data with
      | some _, _ => (m2, false)
      | none, none => (m2, false)
      | none, some d =>
          if jtruthy d then
            match jin "hourly" d with
            | Except.error _ => (m2, true)
            | Except.ok false => (m2, false)
            | Except.ok true =>
                match jindexStr d "hourly" with
                | Except.error _ => (m2, true)
                | Except.ok (Json.obj fs) => (airSetHourly m2 fs a.nowUtc, false)
                | Except.ok _ => (m2, false)
          else (m2, false)

/-- Attach the hourly-requested flag to an `air_hourly` result. -/
def tagHourly (p : ExporterState × Bool) : ExporterState × Bool × Bool :=
  (p.1, p.2, true)

/-- `poll_openmeteo_air`: try the `current` request first; if it errors,
the payload is falsy, the `"current"` key is absent, or parsing the
section raises (caught by the `try`), fall back to exactly one hourly
request. The result is `(state, escapedException, hourlyRequested)`. -/
def poll_openmeteo_air (m : ExporterState) (a : AirArgs) :
    ExporterState × Bool × Bool :=
  match timed_get m "openmeteo_air" a.cur a.e1 with
  | ((data, latency, err), m1) =>
      let m2 := setScrape (observeLatency m1 "openmeteo_air" latency)
        "openmeteo_air" a.now1
      match err, data with
      | some _, _ => tagHourly (air_hourly m2 a)
      | none, none => tagHourly (air_hourly m2 a)
      | none, some d =>
          if jtruthy d then
            match jin "current" d with
            | Except.error _ => (m2, true, false)
            | Except.ok false => tagHourly (air_hourly m2 a)
            | Except.ok true =>
                match jindexStr d "current" with
                | Except.error _ => (m2, true, false)
                | Except.ok c =>
                    match airParseCurrent m2 c with
                    | (m3, true) => (m3, false, false)
                    | (m3, false) => tagHourly (air_hourly m3 a)
          else tagHourly (air_hourly m2 a)

/-- Arguments of one `poll_fx` call. -/
structure FxArgs where
  fo : FetchOutcome
  elapsed : ℚ
  now : ℚ

/-- The `try` block of `poll_fx`: KZT then EUR, a single `try`, so an
exception on KZT (non-numeric value) aborts EUR as well; missing or `None`
values are skipped silently. -/
def fxParseRates (m : ExporterState) (rates : Json) : ExporterState :=
  match getFloatFieldNN rates "KZT" with
  | Except.error _ => m
  | Except.ok r1 =>
      let m1 := match r1 with
        | some x => { m with fx_usd_kzt := some x }
        | none => m
      match getFloatFieldNN rates "EUR" with
      | Except.error _ => m1
      | Except.ok r2 =>
          match r2 with
          | some y => { m1 with fx_eur_kzt := some y }
          | none => m1

/-- `poll_fx`: fetch the USD-based rates, record latency and last-scrape,
then parse the `rates` section. The indexing `data["rates"]` happens
inside the `try`, so only the membership test on a truthy non-container
payload can escape. -/
def poll_fx (m : ExporterState) (a : FxArgs) : ExporterState × Bool :=
  match timed_get m "frankfurter" a.fo a.elapsed with
  | ((data, latency, err), m1) =>
      let m2 := setScrape (observeLatency m1 "frankfurter" latency)
        "frankfurter" a.now
      match err, data with
      | some _, _ => (m2, false)
      | none, none => (m2, false)
      | none, some d =>
          if jtruthy d then
            match jin "rates" d with
            | Except.error _ => (m2, true)
            | Except.ok false => (m2, false)
            | Except.ok true =>
                match jindexStr d "rates" with
                | Except.error _ => (m2, false)
                | Except.ok rates => (fxParseRates m2 rates, false)
          else (m2, false)

/-- Arguments of one `poll_crypto` call: the two independent ticker
requests with their latencies and clock reads. -/
structure CryptoArgs where
  btc : FetchOutcome
  eth : FetchOutcome
  l1 : ℚ
  l2 : ℚ
  nowB : ℚ
  nowE : ℚ

/-- The ETH half of the crypto `try` block
(`if eth and "price" in eth and eth["price"] is not None`). -/
def cryptoSetEth (m : ExporterState) (eth : Option Json) : ExporterState :=
  match eth with
  | some d =>
      if jtruthy d then
        match getFloatFieldNN d "price" with
        | Except.error _ => m
        | Except.ok (some x) => { m with crypto_eth_usd := some x }
        | Except.ok none => m
      else m
  | none => m

/-- The crypto `try` block: BTC first, then ETH, in one `try`; a falsy or
absent payload makes its condition short-circuit without raising, while an
exception while processing BTC skips the ETH line too. -/
def cryptoTry (m : ExporterState) (btc eth : Option Json) : ExporterState :=
  match btc with
  | some d =>
      if jtruthy d then
        match getFloatFieldNN d "price" with
        | Except.error _ => m
        | Except.ok (some x) => cryptoSetEth { m with crypto_btc_usd := some x } eth
        | Except.ok none => cryptoSetEth m eth
      else cryptoSetEth m eth
  | none => cryptoSetEth m eth

/-- `poll_crypto`: two independent fetches against the same source label,
each recording latency and last-scrape, then one `try` block that
publishes whichever prices parsed. Nothing in this collector can escape
(the whole parsing section sits inside the `try`). -/
def poll_crypto (m : ExporterState) (a : CryptoArgs) : ExporterState × Bool :=
  match timed_get m "binance" a.btc a.l1 with
  | ((btcData, lat1, _e1), m1) =>
      let m2 := setScrape (observeLatency m1 "binance" lat1) "binance" a.nowB
      match timed_get m2 "binance" a.eth a.l2 with
      | ((ethData, lat2, _e2), m3) =>
          let m4 := setScrape (observeLatency m3 "binance" lat2) "binance" a.nowE
          (cryptoTry m4 btcData ethData, false)

/-- `SO_MIN_PERIOD`: the fixed minimum period between tag-statistics
requests, in seconds. -/
def SO_MIN_PERIOD : ℚ := 600

/-- Arguments of one `poll_stackoverflow` call: the `time.time()` read
used by the rate gate and stored into `LAST_SO_POLL`, the fetch outcome,
the latency and the post-fetch `time.time()` read. -/
structure SOArgs where
  now : ℚ
  fo : FetchOutcome
  elapsed : ℚ
  nowAfter : ℚ

/-- The label string `prometheus_client` derives from a tag name; for the
string names the API produces this is the string itself (other shapes are
abstracted by a printed form; no claim depends on them). -/
def jlabel : Json → String
  | Json.str s _ _ => s
  | Json.num x => toString x
  | Json.bool b => if b then "True" else "False"
  | Json.null => "None"
  | Json.arr _ => "<list>"
  | Json.obj _ => "<dict>"

/-- The `for item in data["items"]` loop of `poll_stackoverflow`: each
dict item with a truthy `name` and a non-`None` `count` publishes
`so_tag_count{tag=name} = float(count)`; a non-dict item or a
non-numeric count raises inside the `try`, aborting the loop but keeping
the tags already set. -/
def soItemsLoop (m : ExporterState) : List Json → ExporterState
  | [] => m
  | item :: rest =>
      match item with
      | Json.obj fs =>
          let name := (dictGet fs "name").getD Json.null
          let cnt := (dictGet fs "count").getD Json.null
          if jtruthy name && !jIsNull cnt then
            match pyFloat cnt with
            | some x =>
                soItemsLoop
                  { m with so_tag_count := setAssoc m.so_tag_count (jlabel name) x }
                  rest
            | none => m
          else soItemsLoop m rest
      | _ => m

/-- Process `data["items"]`: iterating a non-list either raises
`TypeError` immediately or yields non-dict elements whose `.get` raises;
both are caught by the `try`, leaving the state unchanged. -/
def soProcessItems (m : ExporterState) (items : Json) : ExporterState :=
  match items with
  | Json.arr xs => soItemsLoop m xs
  | _ => m

/-- `poll_stackoverflow`: the rate gate returns immediately (a no-op) when
less than `SO_MIN_PERIOD` has elapsed since `LAST_SO_POLL`; otherwise
`LAST_SO_POLL` is set to the current time BEFORE the request is issued,
regardless of the request's outcome. The result is
`(state, escapedException, requestIssued)`. The two `time.time()` reads at
the gate and at the assignment are modelled as the same instant `a.now`. -/
def poll_stackoverflow (m : ExporterState) (a : SOArgs) :
    ExporterState × Bool × Bool :=
  if a.now - m.last_so_poll < SO_MIN_PERIOD then (m, false, false)
  else
    let m0 := { m with last_so_poll := a.now }
    match timed_get m0 "stackoverflow" a.fo a.elapsed with
    | ((data, latency, err), m1) =>
        let m2 := setScrape (observeLatency m1 "stackoverflow" latency)
          "stackoverflow" a.nowAfter
        match err, data with
        | some _, _ => (m2, false, true)
        | none, none => (m2, false, true)
        | none, some d =>
            if jtruthy d then
              match jin "items" d with
              | Except.error _ => (m2, true, true)
              | Except.ok false => (m2, false, true)
              | Except.ok true =>
                  match jindexStr d "items" with
                  | Except.error _ => (m2, false, true)
                  | Except.ok items => (soProcessItems m2 items, false, true)
            else (m2, false, true)

/-- `SCRAPE_INTERVAL`: the fixed sleep between scheduler cycles, in
seconds. -/
def SCRAPE_INTERVAL : ℚ := 20

/-- One collector invocation together with its external inputs, in the
order the loop body issues them. -/
inductive CollectorCall where
  | weather (a : WeatherArgs)
  | air (a : AirArgs)
  | fx (a : FxArgs)
  | crypto (a : CryptoArgs)
  | so (a : SOArgs)

/-- Run one collector; the `Bool` is `true` when an exception escapes the
collector into the loop body. -/
def runCollector (m : ExporterState) : CollectorCall → ExporterState × Bool
  | CollectorCall.weather a => poll_openmeteo_weather m a
  | CollectorCall.air a =>
      ((poll_openmeteo_air m a).1, (poll_openmeteo_air m a).2.1)
  | CollectorCall.fx a => poll_fx m a
  | CollectorCall.crypto a => poll_crypto m a
  | CollectorCall.so a =>
      ((poll_stackoverflow m a).1, (poll_stackoverflow m a).2.1)

/-- Run a cycle's collector calls in order: the first escaping exception
aborts the remaining collectors of the cycle (Python unwinds to the `try`
around the loop body), keeping the state reached so far; the `Bool`
reports whether that happened. -/
def runCycleCalls : ExporterState → List CollectorCall → ExporterState × Bool
  | m, [] => (m, false)
  | m, c :: rest =>
      if (runCollector m c).2 then ((runCollector m c).1, true)
      else runCycleCalls (runCollector m c).1 rest

/-- External inputs of one full scheduler cycle. -/
structure CycleInput where
  weather : WeatherArgs
  air : AirArgs
  fx : FxArgs
  crypto : CryptoArgs
  so : SOArgs

/-- The fixed collector order of the loop body. -/
def cycleCalls (ci : CycleInput) : List CollectorCall :=
  [CollectorCall.weather ci.weather, CollectorCall.air ci.air,
   CollectorCall.fx ci.fx, CollectorCall.crypto ci.crypto,
   CollectorCall.so ci.so]

/-- One scheduler cycle: the loop body inside its `try`. -/
def runCycle (m : ExporterState) (ci : CycleInput) : ExporterState × Bool :=
  runCycleCalls m (cycleCalls ci)

/-- The scheduler loop over a finite trace of cycle inputs: each cycle's
escaping exception (if any) is caught and logged at the cycle boundary,
and the loop sleeps `SCRAPE_INTERVAL` seconds after every cycle, success
or failure. Returns the final state and the total time slept. -/
def loop_run : ExporterState → List CycleInput → ExporterState × ℚ
  | m, [] => (m, 0)
  | m, ci :: rest =>
      ((loop_run (runCycle m ci).1 rest).1,
       SCRAPE_INTERVAL + (loop_run (runCycle m ci).1 rest).2)

/-- A trace of `poll_stackoverflow` invocations: returns the final state
and the gate times (`a.now`) of the calls that actually issued a network
request. -/
def so_run : ExporterState → List SOArgs → ExporterState × List ℚ
  | m, [] => (m, [])
  | m, a :: rest =>
      match poll_stackoverflow m a with
      | (m', _, true) =>
          ((so_run m' rest).1, a.now :: (so_run m' rest).2)
      | (m', _, false) => so_run m' rest

/-- The projection of the state that the published data gauges span: the
ten unlabelled value gauges and the labelled tag gauge. These are the
MetricPoints of the data model (the per-source bookkeeping counters and
the latency summary are SourceHealth, not MetricPoints). -/
structure GaugeView where
  wt : Option ℚ
  ww : Option ℚ
  wh : Option ℚ
  p10 : Option ℚ
  p25 : Option ℚ
  aqi : Option ℚ
  kzt : Option ℚ
  eur : Option ℚ
  btc : Option ℚ
  eth : Option ℚ
  tags : List (String × ℚ)
deriving DecidableEq, Repr

/-- Read the data-gauge view of a state. -/
def gaugeView (m : ExporterState) : GaugeView :=
  { wt := m.weather_temperature_c
    ww := m.weather_wind_speed_ms
    wh := m.weather_humidity_percent
    p10 := m.air_pm10_ugm3
    p25 := m.air_pm25_ugm3
    aqi := m.air_us_aqi
    kzt := m.fx_usd_kzt
    eur := m.fx_eur_kzt
    btc := m.crypto_btc_usd
    eth := m.crypto_eth_usd
    tags := m.so_tag_count }

/-- A single gauge write as the code performs it: `some x` replaces the
cell with `x`, `none` (no write on this branch) leaves it unchanged. -/
def onceWrite (w : Option ℚ) (old : Option ℚ) : Option ℚ :=
  match w with
  | some x => some x
  | none => old

@[simp] lemma gaugeView_incSuccess (m : ExporterState) (k : String) :
    gaugeView (incSuccess m k) = gaugeView m := rfl

@[simp] lemma gaugeView_incFail (m : ExporterState) (k : String) :
    gaugeView (incFail m k) = gaugeView m := rfl

@[simp] lemma gaugeView_observeLatency (m : ExporterState) (k : String) (x : ℚ) :
    gaugeView (observeLatency m k x) = gaugeView m := rfl

@[simp] lemma gaugeView_setScrape (m : ExporterState) (k : String) (t : ℚ) :
    gaugeView (setScrape m k t) = gaugeView m := rfl

@[simp] lemma gaugeView_timed_get (m : ExporterState) (api : String)
    (fo : FetchOutcome) (e : ℚ) :
    gaugeView (timed_get m api fo e).2 = gaugeView m := by
  cases fo <;> rfl

@[simp] lemma incSuccess_last_so_poll (m : ExporterState) (k : String) :
    (incSuccess m k).last_so_poll = m.last_so_poll := rfl

@[simp] lemma incFail_last_so_poll (m : ExporterState) (k : String) :
    (incFail m k).last_so_poll = m.last_so_poll := rfl

@[simp] lemma observeLatency_last_so_poll (m : ExporterState) (k : String) (x : ℚ) :
    (observeLatency m k x).last_so_poll = m.last_so_poll := rfl

@[simp] lemma setScrape_last_so_poll (m : ExporterState) (k : String) (t : ℚ) :
    (setScrape m k t).last_so_poll = m.last_so_poll := rfl

@[simp] lemma timed_get_last_so_poll (m : ExporterState) (api : String)
    (fo : FetchOutcome) (e : ℚ) :
    (timed_get m api fo e).2.last_so_poll = m.last_so_poll := by
  cases fo <;> rfl

lemma soItemsLoop_last_so_poll (xs : List Json) :
    ∀ m : ExporterState, (soItemsLoop m xs).last_so_poll = m.last_so_poll := by
  induction xs with
  | nil => intro m; rfl
  | cons item rest ih =>
      intro m
      cases item <;> simp only [soItemsLoop]
      case obj fs =>
        split
        · split
          · rw [ih]
          · rfl
        · rw [ih]

lemma soProcessItems_last_so_poll (m : ExporterState) (items : Json) :
    (soProcessItems m items).last_so_poll = m.last_so_poll := by
  cases items <;> simp only [soProcessItems]
  exact soItemsLoop_last_so_poll _ _

lemma countOf_bump_self (l : List (String × Nat)) (k : String) :
    countOf (bumpAssoc l k) k = countOf l k + 1 := by
  induction l with
  | nil => simp [bumpAssoc, countOf, List.lookup]
  | cons p rest ih =>
      obtain ⟨k', n⟩ := p
      by_cases h : k' = k
      · subst h
        simp [bumpAssoc, countOf, List.lookup]
      · have hb : (k == k') = false := beq_eq_false_iff_ne.mpr (Ne.symm h)
        simp only [bumpAssoc, if_neg h, countOf, List.lookup, hb]
        exact ih

lemma countOf_bump_ne (l : List (String × Nat)) (k k' : String) (h : k' ≠ k) :
    countOf (bumpAssoc l k) k' = countOf l k' := by
  induction l with
  | nil =>
      have hb : (k' == k) = false := beq_eq_false_iff_ne.mpr h
      simp [bumpAssoc, countOf, List.lookup, hb]
  | cons p rest ih =>
      obtain ⟨ka, n⟩ := p
      by_cases hk : ka = k
      · have hb : (k' == ka) = false := by
          rw [hk]
          exact beq_eq_false_iff_ne.mpr h
        simp only [bumpAssoc, if_pos hk, countOf, List.lookup, hb]
      · by_cases hk2 : ka = k'
        · have hb : (k' == ka) = true := beq_iff_eq.mpr hk2.symm
          simp only [bumpAssoc, if_neg hk, countOf, List.lookup, hb]
        · have hb : (k' == ka) = false :=
            beq_eq_false_iff_ne.mpr (fun hh => hk2 hh.symm)
          simp only [bumpAssoc, if_neg hk, countOf, List.lookup, hb]
          exact ih

/-- C5: for every call to the Fetcher (`timed_get`): on any network,
HTTP-status, or JSON-decode failure it returns an absent payload together
with the error and increments that source's failure counter exactly once
(leaving the success counter and every other source's counters
unchanged); on success it returns the payload with no error and
increments that source's success counter exactly once (leaving the
failure counter and other sources unchanged). It never raises to its
caller: `timed_get` is a total function and every failure mode is
returned as data; it touches no other part of the state. -/
theorem C5_fetcher_contract (m : ExporterState) (api : String)
    (fo : FetchOutcome) (elapsed : ℚ) :
    (∀ d, fo = FetchOutcome.ok d →
      (timed_get m api fo elapsed).1 = (some d, elapsed, none) ∧
      countOf (timed_get m api fo elapsed).2.api_success_total api
        = countOf m.api_success_total api + 1 ∧
      (timed_get m api fo elapsed).2.api_fail_total = m.api_fail_total ∧
      (∀ api', api' ≠ api →
        countOf (timed_get m api fo elapsed).2.api_success_total api'
          = countOf m.api_success_total api')) ∧
    (∀ e, fo = FetchOutcome.fail e →
      (timed_get m api fo elapsed).1 = (none, elapsed, some e) ∧
      countOf (timed_get m api fo elapsed).2.api_fail_total api
        = countOf m.api_fail_total api + 1 ∧
      (timed_get m api fo elapsed).2.api_success_total = m.api_success_total ∧
      (∀ api', api' ≠ api →
        countOf (timed_get m api fo elapsed).2.api_fail_total api'
          = countOf m.api_fail_total api')) ∧
    gaugeView (timed_get m api fo elapsed).2 = gaugeView m ∧
    (timed_get m api fo elapsed).2.api_latency_obs = m.api_latency_obs ∧
    (timed_get m api fo elapsed).2.api_last_scrape = m.api_last_scrape ∧
    (timed_get m api fo elapsed).2.last_so_poll = m.last_so_poll := by
  refine ⟨?_, ?_, ?_, ?_, ?_, ?_⟩
  · rintro d rfl
    refine ⟨rfl, ?_, rfl, ?_⟩
    · simpa [timed_get, incSuccess] using countOf_bump_self m.api_success_total api
    · intro api' hne
      simpa [timed_get, incSuccess] using
        countOf_bump_ne m.api_success_total api api' hne
  · rintro e rfl
    refine ⟨rfl, ?_, rfl, ?_⟩
    · simpa [timed_get, incFail] using countOf_bump_self m.api_fail_total api
    · intro api' hne
      simpa [timed_get, incFail] using
        countOf_bump_ne m.api_fail_total api api' hne
  · cases fo <;> rfl
  · cases fo <;> rfl
  · cases fo <;> rfl
  · cases fo <;> rfl

/-- Witness for C5 at a concrete successful and a concrete failed fetch. -/
theorem C5_fetcher_contract_witness :
    countOf (timed_get startState "frankfurter" (FetchOutcome.ok Json.null) 1).2.api_success_total
        "frankfurter"
      = countOf startState.api_success_total "frankfurter" + 1 ∧
    (timed_get startState "binance" (FetchOutcome.fail 7) 2).1 = (none, 2, some 7) := by
  constructor
  · exact ((C5_fetcher_contract startState "frankfurter"
      (FetchOutcome.ok Json.null) 1).1 Json.null rfl).2.1
  · exact ((C5_fetcher_contract startState "binance"
      (FetchOutcome.fail 7) 2).2.1 7 rfl).1

/-- C3: for every cycle of the scheduler loop, an unexpected fault raised
inside any collector is caught at the cycle boundary and never terminates
the loop: the loop always continues into the remaining cycles and sleeps
the fixed 20-second interval (`SCRAPE_INTERVAL = 20`) after every cycle,
fault or not, so the total sleep over a trace is 20 seconds per cycle.
Within the faulting cycle, the collectors after the fault point are
skipped (the cycle's state is the state reached at the fault), while
collectors that ran before the fault have already applied their updates
(a fault-free prefix step simply advances the state). -/
theorem C3_loop_survival :
    (∀ (m : ExporterState) (ci : CycleInput) (rest : List CycleInput),
        loop_run m (ci :: rest)
          = ((loop_run (runCycle m ci).1 rest).1,
             SCRAPE_INTERVAL + (loop_run (runCycle m ci).1 rest).2)) ∧
    (∀ (m : ExporterState) (cis : List CycleInput),
        (loop_run m cis).2 = SCRAPE_INTERVAL * cis.length) ∧
    SCRAPE_INTERVAL = 20 ∧
    (∀ (m : ExporterState) (c : CollectorCall) (rest : List CollectorCall),
        (runCollector m c).2 = true →
        runCycleCalls m (c :: rest) = ((runCollector m c).1, true)) ∧
    (∀ (m : ExporterState) (c : CollectorCall) (rest : List CollectorCall),
        (runCollector m c).2 = false →
        runCycleCalls m (c :: rest) = runCycleCalls (runCollector m c).1 rest) := by
  refine ⟨fun m ci rest => rfl, ?_, rfl, ?_, ?_⟩
  · intro m cis
    induction cis generalizing m with
    | nil => simp [loop_run]
    | cons ci rest ih =>
        simp [loop_run, ih, Nat.cast_add]
        ring
  · intro m c rest h
    simp [runCycleCalls, h]
  · intro m c rest h
    simp [runCycleCalls, h]

/-- Witness for C3: a truthy non-dict payload makes the membership test in
the weather collector raise, so the rest of the cycle's calls are skipped;
a fault-free fx call advances the state; the sleep accounting is
evaluated on a two-cycle trace. -/
theorem C3_loop_survival_witness :
    runCycleCalls startState
        [CollectorCall.weather ⟨FetchOutcome.ok (Json.num 5), 1, 2⟩,
         CollectorCall.fx ⟨FetchOutcome.fail 0, 1, 2⟩]
      = ((runCollector startState
          (CollectorCall.weather ⟨FetchOutcome.ok (Json.num 5), 1, 2⟩)).1, true) ∧
    runCycleCalls startState
        [CollectorCall.fx ⟨FetchOutcome.fail 0, 1, 2⟩]
      = runCycleCalls
          (runCollector startState (CollectorCall.fx ⟨FetchOutcome.fail 0, 1, 2⟩)).1 [] := by
  constructor
  · exact C3_loop_survival.2.2.2.1 startState _ _ (by decide)
  · exact C3_loop_survival.2.2.2.2 startState _ _ (by decide)

lemma so_gate_pass (m : ExporterState) (a : SOArgs)
    (h : ¬ a.now - m.last_so_poll < SO_MIN_PERIOD) :
    (poll_stackoverflow m a).1.last_so_poll = a.now ∧
    (poll_stackoverflow m a).2.2 = true := by
  unfold poll_stackoverflow
  rw [if_neg h]
  cases hfo : a.fo with
  | fail e => simp [timed_get]
  | ok d =>
      simp only [timed_get]
      by_cases ht : jtruthy d
      · simp only [ht, if_true]
        rcases hj : jin "items" d with _ | b
        · simp [hj]
        · cases b
          · simp [hj]
          · simp only [hj]
            rcases hx : jindexStr d "items" with _ | items
            · simp [hx]
            · simp [hx, soProcessItems_last_so_poll]
      · simp [ht]

lemma so_gate_noop (m : ExporterState) (a : SOArgs)
    (h : a.now - m.last_so_poll < SO_MIN_PERIOD) :
    poll_stackoverflow m a = (m, false, false) := by
  unfold poll_stackoverflow
  rw [if_pos h]

lemma so_run_spec (calls : List SOArgs) :
    ∀ m : ExporterState,
      (∀ t ∈ (so_run m calls).2, m.last_so_poll + SO_MIN_PERIOD ≤ t) ∧
      List.Pairwise (fun s t => s + SO_MIN_PERIOD ≤ t) (so_run m calls).2 := by
  have h600 : (0 : ℚ) ≤ SO_MIN_PERIOD := by norm_num [SO_MIN_PERIOD]
  induction calls with
  | nil => intro m; simp [so_run]
  | cons a rest ih =>
      intro m
      by_cases h : a.now - m.last_so_poll < SO_MIN_PERIOD
      · have hpoll : poll_stackoverflow m a = (m, false, false) :=
          so_gate_noop m a h
        simp only [so_run, hpoll]
        exact ih m
      · rcases hp : poll_stackoverflow m a with ⟨m', fl, req⟩
        have hreq : req = true := by
          have := (so_gate_pass m a h).2
          rw [hp] at this
          exact this
        have hl : m'.last_so_poll = a.now := by
          have := (so_gate_pass m a h).1
          rw [hp] at this
          exact this
        subst hreq
        simp only [so_run, hp]
        have hbound := (ih m').1
        have hpw := (ih m').2
        rw [hl] at hbound
        have hgate : m.last_so_poll + SO_MIN_PERIOD ≤ a.now := by linarith
        refine ⟨?_, ?_⟩
        · intro t ht
          rcases List.mem_cons.mp ht with h1 | h1
          · exact h1 ▸ hgate
          · have := hbound t h1
            linarith
        · exact List.Pairwise.cons (fun t ht => hbound t ht) hpw

/-- C8: the tag-statistics collector is rate-gated: when less than the
fixed minimum period `SO_MIN_PERIOD = 600` seconds has elapsed since the
last execution, the call is a complete no-op for this source (the state,
including the gate timestamp `LAST_SO_POLL` and the source's last-attempt
gauge, is returned unchanged and no request is issued); two calls five
minutes apart with the ten-minute minimum period produce exactly one
request (the first fires, the second is a no-op). -/
theorem C8_so_rate_gate :
    (∀ (m : ExporterState) (a : SOArgs),
        a.now - m.last_so_poll < SO_MIN_PERIOD →
        poll_stackoverflow m a = (m, false, false)) ∧
    SO_MIN_PERIOD = 600 ∧
    (∀ (m : ExporterState) (a b : SOArgs),
        ¬ a.now - m.last_so_poll < SO_MIN_PERIOD →
        b.now = a.now + 300 →
        (poll_stackoverflow m a).2.2 = true ∧
        poll_stackoverflow (poll_stackoverflow m a).1 b
          = ((poll_stackoverflow m a).1, false, false)) := by
  refine ⟨fun m a h => so_gate_noop m a h, rfl, ?_⟩
  intro m a b h hb
  refine ⟨(so_gate_pass m a h).2, ?_⟩
  have hl := (so_gate_pass m a h).1
  have hlt : b.now - (poll_stackoverflow m a).1.last_so_poll < SO_MIN_PERIOD := by
    rw [hl, hb]
    norm_num [SO_MIN_PERIOD]
  exact so_gate_noop (poll_stackoverflow m a).1 b hlt

/-- Witness for C8: from the start state, a call at t = 600 passes the
gate and issues a request; a second call at t = 900 (five minutes later)
is a no-op. -/
theorem C8_so_rate_gate_witness :
    (poll_stackoverflow startState ⟨600, FetchOutcome.fail 0, 1, 601⟩).2.2 = true ∧
    poll_stackoverflow
        (poll_stackoverflow startState ⟨600, FetchOutcome.fail 0, 1, 601⟩).1
        ⟨900, FetchOutcome.fail 0, 1, 901⟩
      = ((poll_stackoverflow startState ⟨600, FetchOutcome.fail 0, 1, 601⟩).1,
         false, false) :=
  C8_so_rate_gate.2.2 startState ⟨600, FetchOutcome.fail 0, 1, 601⟩
    ⟨900, FetchOutcome.fail 0, 1, 901⟩ (by norm_num [SO_MIN_PERIOD, startState])
    (by norm_num)

/-- C10: in the tag-statistics collector the gate timestamp
`LAST_SO_POLL` is set to the current time whenever the gate passes,
regardless of whether the request then succeeds or fails (the outcome
`a.fo` is arbitrary in the first part); consequently a failed attempt
still delays the next attempt by the full minimum period, and over any
trace of calls the gate times of the requests actually issued are
pairwise at least `SO_MIN_PERIOD = 600` seconds apart. -/
theorem C10_so_gate_timestamp :
    (∀ (m : ExporterState) (a : SOArgs),
        ¬ a.now - m.last_so_poll < SO_MIN_PERIOD →
        (poll_stackoverflow m a).1.last_so_poll = a.now ∧
        (poll_stackoverflow m a).2.2 = true) ∧
    (∀ (m : ExporterState) (a b : SOArgs) (e : Nat),
        a.fo = FetchOutcome.fail e →
        ¬ a.now - m.last_so_poll < SO_MIN_PERIOD →
        b.now - a.now < SO_MIN_PERIOD →
        poll_stackoverflow (poll_stackoverflow m a).1 b
          = ((poll_stackoverflow m a).1, false, false)) ∧
    (∀ (m : ExporterState) (calls : List SOArgs),
        List.Pairwise (fun s t => s + SO_MIN_PERIOD ≤ t) (so_run m calls).2) := by
  refine ⟨fun m a h => so_gate_pass m a h, ?_, fun m calls => (so_run_spec calls m).2⟩
  intro m a b e _hfo h hlt
  have hl := (so_gate_pass m a h).1
  have hgate : b.now - (poll_stackoverflow m a).1.last_so_poll < SO_MIN_PERIOD := by
    rw [hl]
    exact hlt
  exact so_gate_noop (poll_stackoverflow m a).1 b hgate

/-- Witness for C10: a failed attempt at t = 700 still sets the gate
timestamp, and a retry at t = 1200 (500 s later) is a no-op. -/
theorem C10_so_gate_timestamp_witness :
    (poll_stackoverflow startState ⟨700, FetchOutcome.fail 3, 1, 701⟩).1.last_so_poll = 700 ∧
    poll_stackoverflow
        (poll_stackoverflow startState ⟨700, FetchOutcome.fail 3, 1, 701⟩).1
        ⟨1200, FetchOutcome.ok Json.null, 1, 1201⟩
      = ((poll_stackoverflow startState ⟨700, FetchOutcome.fail 3, 1, 701⟩).1,
         false, false) := by
  constructor
  · exact (C10_so_gate_timestamp.1 startState ⟨700, FetchOutcome.fail 3, 1, 701⟩
      (by norm_num [SO_MIN_PERIOD, startState])).1
  · exact C10_so_gate_timestamp.2.1 startState ⟨700, FetchOutcome.fail 3, 1, 701⟩
      ⟨1200, FetchOutcome.ok Json.null, 1, 1201⟩ 3 rfl
      (by norm_num [SO_MIN_PERIOD, startState]) (by norm_num [SO_MIN_PERIOD])

lemma lpvScan_skip_head (t v : Json) (rest : List (Json × Json)) (now : Int)
    (h : parse_iso_ts t = none ∨
      ∃ i, parse_iso_ts t = some i ∧ (now < i ∨ (i ≤ now ∧ v = Json.null))) :
    lpvScan ((t, v) :: rest) now = lpvScan rest now := by
  rcases h with h | ⟨i, hi, hcase⟩
  · simp [lpvScan, h]
  · rcases hcase with hfut | ⟨hle, hnull⟩
    · simp [lpvScan, hi, not_le.mpr hfut]
    · subst hnull
      simp [lpvScan, hi, hle]

lemma lpvScan_append_skip (l1 l2 : List (Json × Json)) (now : Int)
    (h : ∀ p ∈ l1, parse_iso_ts p.1 = none ∨
      ∃ i, parse_iso_ts p.1 = some i ∧ (now < i ∨ (i ≤ now ∧ p.2 = Json.null))) :
    lpvScan (l1 ++ l2) now = lpvScan l2 now := by
  induction l1 with
  | nil => rfl
  | cons p rest ih =>
      obtain ⟨t, v⟩ := p
      rw [List.cons_append,
        lpvScan_skip_head t v (rest ++ l2) now (h (t, v) (List.mem_cons_self _ _))]
      exact ih fun q hq => h q (List.mem_cons_of_mem _ hq)

lemma lpvScan_all_skip (l : List (Json × Json)) (now : Int)
    (h : ∀ p ∈ l, parse_iso_ts p.1 = none ∨
      ∃ i, parse_iso_ts p.1 = some i ∧ (now < i ∨ (i ≤ now ∧ p.2 = Json.null))) :
    lpvScan l now = none := by
  have := lpvScan_append_skip l [] now h
  simpa using this

lemma lpvScan_hit (t v : Json) (rest : List (Json × Json)) (now : Int)
    (i : Int) (x : ℚ) (hp : parse_iso_ts t = some i) (hle : i ≤ now)
    (hv : pyFloat v = some x) :
    lpvScan ((t, v) :: rest) now = some x := by
  cases v <;> simp_all [lpvScan, pyFloat]

lemma lpvScan_abort (t v : Json) (rest : List (Json × Json)) (now : Int)
    (i : Int) (hp : parse_iso_ts t = some i) (hle : i ≤ now)
    (hnn : v ≠ Json.null) (hv : pyFloat v = none) :
    lpvScan ((t, v) :: rest) now = none := by
  cases v <;> simp_all [lpvScan, pyFloat]

lemma lpvScan_select (times values : List Json) (now : Int) (j : Nat)
    (hj : j < times.length) (hlen : times.length = values.length)
    (i : Int) (x : ℚ)
    (hp : parse_iso_ts (times.get ⟨j, hj⟩) = some i) (hle : i ≤ now)
    (hfut : ∀ k (hk : k < times.length), j < k →
      ∀ u, parse_iso_ts (times.get ⟨k, hk⟩) = some u → now < u)
    (hv : pyFloat (values.get ⟨j, hlen ▸ hj⟩) = some x) :
    lpvScan ((times.zip values).reverse) now = some x := by
  have hzl : (times.zip values).length = times.length := by
    rw [List.length_zip, hlen, Nat.min_self]
  have hjz : j < (times.zip values).length := hzl ▸ hj
  have hsplit : (times.zip values).reverse
      = ((times.zip values).drop (j + 1)).reverse
        ++ ((times.zip values).take (j + 1)).reverse := by
    rw [← List.reverse_append, List.take_append_drop]
  rw [hsplit, lpvScan_append_skip]
  · have htake : (times.zip values).take (j + 1)
        = (times.zip values).take j ++ [(times.zip values).get ⟨j, hjz⟩] := by
      rw [List.take_succ, List.getElem?_eq_getElem hjz]
      rfl
    rw [htake]
    have hrev : ((times.zip values).take j ++ [(times.zip values).get ⟨j, hjz⟩]).reverse
        = (times.zip values).get ⟨j, hjz⟩ :: ((times.zip values).take j).reverse := by
      simp
    rw [hrev]
    have hel : (times.zip values).get ⟨j, hjz⟩ = (times.get ⟨j, hj⟩, values.get ⟨j, hlen ▸ hj⟩) :=
      List.getElem_zip
    rw [hel]
    exact lpvScan_hit _ _ _ now i x hp hle hv
  · intro p hp'
    have hmem : p ∈ (times.zip values).drop (j + 1) := List.mem_reverse.mp hp'
    obtain ⟨n, hn, hpn⟩ := List.mem_iff_getElem.mp hmem
    have hbound : j + 1 + n < times.length := by
      have := hn
      rw [List.length_drop, hzl] at this
      omega
    have hpz : p = (times.get ⟨j + 1 + n, hbound⟩, values.get ⟨j + 1 + n, hlen ▸ hbound⟩) := by
      rw [← hpn]
      rw [List.getElem_drop]
      exact List.getElem_zip
    cases hparse : parse_iso_ts p.1 with
    | none => exact Or.inl rfl
    | some u =>
        refine Or.inr ⟨u, rfl, Or.inl ?_⟩
        apply hfut (j + 1 + n) hbound (by omega) u
        rw [hpz] at hparse
        exact hparse

/-- C1: the Temporal Selector (`_last_past_value`). It returns absent when
the timestamp sequence or the named value sequence is missing or not a
list, when the two lists have unequal lengths, or when they are empty;
with a valid shape it returns absent when no timestamp parses to an
instant ≤ `now`, and it returns the (numerically convertible) value at the
greatest index whose timestamp parses to an absolute UTC instant ≤ `now`.
A timestamp lacking an explicit offset (a naive datetime) is interpreted
as UTC — its instant is its wall time — while an offset-aware timestamp is
converted to UTC by subtracting its offset. -/
theorem C1_temporal_selector (fs : List (String × Json)) (key : String)
    (now : Int) :
    ((∀ l, dictGet fs "time" ≠ some (Json.arr l)) →
        last_past_value fs key now = none) ∧
    ((∀ l, dictGet fs key ≠ some (Json.arr l)) →
        last_past_value fs key now = none) ∧
    (∀ times values, dictGet fs "time" = some (Json.arr times) →
        dictGet fs key = some (Json.arr values) →
        times.length ≠ values.length → last_past_value fs key now = none) ∧
    (∀ values, dictGet fs "time" = some (Json.arr []) →
        dictGet fs key = some (Json.arr values) →
        last_past_value fs key now = none) ∧
    (∀ times values, dictGet fs "time" = some (Json.arr times) →
        dictGet fs key = some (Json.arr values) →
        times.length = values.length →
        (∀ i (hi : i < times.length) t,
          parse_iso_ts (times.get ⟨i, hi⟩) = some t → now < t) →
        last_past_value fs key now = none) ∧
    (∀ times values, dictGet fs "time" = some (Json.arr times) →
        dictGet fs key = some (Json.arr values) →
        ∀ (hlen : times.length = values.length)
          (j : Nat) (hj : j < times.length) (t : Int) (x : ℚ),
          parse_iso_ts (times.get ⟨j, hj⟩) = some t → t ≤ now →
          (∀ k (hk : k < times.length), j < k →
            ∀ u, parse_iso_ts (times.get ⟨k, hk⟩) = some u → now < u) →
          pyFloat (values.get ⟨j, hlen ▸ hj⟩) = some x →
          last_past_value fs key now = some x) ∧
    (∀ s c w, parse_iso_ts (Json.str s c (IsoParse.naive w)) = some w) ∧
    (∀ s c w off,
        parse_iso_ts (Json.str s c (IsoParse.aware w off)) = some (w - off)) := by
  refine ⟨?_, ?_, ?_, ?_, ?_, ?_, fun s c w => rfl, fun s c w off => rfl⟩
  · intro h
    unfold last_past_value
    rcases hd : dictGet fs "time" with _ | v
    · rfl
    · cases v
      case arr l => exact absurd hd (h l)
      all_goals rfl
  · intro h
    unfold last_past_value
    rcases hd : dictGet fs "time" with _ | v
    · rfl
    · cases v
      case arr l =>
        rcases hk : dictGet fs key with _ | w
        · rfl
        · cases w
          case arr l2 => exact absurd hk (h l2)
          all_goals rfl
      all_goals rfl
  · intro times values ht hk hlen
    unfold last_past_value
    rw [ht, hk]
    have hb : (times.length == values.length) = false :=
      beq_eq_false_iff_ne.mpr hlen
    simp [hb]
  · intro values ht hk
    unfold last_past_value
    rw [ht, hk]
    simp
  · intro times values ht hk hlen hfut
    unfold last_past_value
    rw [ht, hk]
    by_cases hemp : times.isEmpty
    · simp [hemp]
    · have hb : (times.length == values.length) = true := beq_iff_eq.mpr hlen
      simp only [hb, hemp, Bool.not_false, Bool.and_self, if_true]
      apply lpvScan_all_skip
      intro p hp'
      have hmem : p ∈ times.zip values := List.mem_reverse.mp hp'
      obtain ⟨n, hn, hpn⟩ := List.mem_iff_getElem.mp hmem
      have hzl : (times.zip values).length = times.length := by
        rw [List.length_zip, hlen, Nat.min_self]
      have hbound : n < times.length := hzl ▸ hn
      have hpz : p = (times.get ⟨n, hbound⟩, values.get ⟨n, hlen ▸ hbound⟩) := by
        rw [← hpn]
        exact List.getElem_zip
      cases hparse : parse_iso_ts p.1 with
      | none => exact Or.inl rfl
      | some u =>
          refine Or.inr ⟨u, rfl, Or.inl ?_⟩
          apply hfut n hbound u
          rw [hpz] at hparse
          exact hparse
  · intro times values ht hk hlen j hj t x hp hle hfut hv
    unfold last_past_value
    rw [ht, hk]
    have hb : (times.length == values.length) = true := beq_iff_eq.mpr hlen
    have hemp : times.isEmpty = false := by
      cases times with
      | nil => simp at hj
      | cons a l => rfl
    simp only [hb, hemp, Bool.not_false, Bool.and_self, if_true]
    exact lpvScan_select times values now j hj hlen t x hp hle hfut hv

/-- Witness for C1 on a one-element series: the single timestamp is a
naive (UTC-interpreted) instant 10 ≤ 100, so the value 2 is selected. -/
theorem C1_temporal_selector_witness :
    last_past_value
        [("time", Json.arr [Json.str "t0" none (IsoParse.naive 10)]),
         ("pm10", Json.arr [Json.num 2])] "pm10" 100 = some 2 := by
  refine (C1_temporal_selector
      [("time", Json.arr [Json.str "t0" none (IsoParse.naive 10)]),
       ("pm10", Json.arr [Json.num 2])] "pm10" 100).2.2.2.2.2.1
    [Json.str "t0" none (IsoParse.naive 10)] [Json.num 2] (by rfl) (by rfl) rfl
    0 (by simp) 10 2 rfl (by omega) ?_ rfl
  intro k hk hjk u hu
  simp at hk
  omega

/-- A two-key hourly dict as the upstream API produces it. -/
def mkHourly (key : String) (times values : List Json) : List (String × Json) :=
  [("time", Json.arr times), (key, Json.arr values)]

lemma mkHourly_time (key : String) (ts vs : List Json) :
    dictGet (mkHourly key ts vs) "time" = some (Json.arr ts) := by
  simp [mkHourly, dictGet, List.lookup]

lemma mkHourly_key (key : String) (ts vs : List Json) (h : key ≠ "time") :
    dictGet (mkHourly key ts vs) key = some (Json.arr vs) := by
  have hb : (key == "time") = false := beq_eq_false_iff_ne.mpr h
  simp [mkHourly, dictGet, List.lookup, hb]

lemma last_past_value_mkHourly (key : String) (ts vs : List Json) (now : Int)
    (h : key ≠ "time") (hlen : ts.length = vs.length) :
    last_past_value (mkHourly key ts vs) key now
      = if ts.isEmpty then none else lpvScan ((ts.zip vs).reverse) now := by
  unfold last_past_value
  rw [mkHourly_time, mkHourly_key _ _ _ h]
  have hb : (ts.length == vs.length) = true := beq_iff_eq.mpr hlen
  cases hemp : ts.isEmpty
  · simp [hb, hemp]
  · simp [hb, hemp]

/-- The concrete series refuting C2 as stated: both timestamps are past
(naive instants 10 and 20 against `now = 100`); the most recent value is
a non-null, non-numeric string (`float` raises), the earlier one is the
number 5. The claim as stated predicts the scan skips the non-convertible
candidate and returns 5; the code returns `None` (it aborts the scan). -/
def cexSeries : List (String × Json) :=
  [("time", Json.arr [Json.str "t1" none (IsoParse.naive 10),
                      Json.str "t2" none (IsoParse.naive 20)]),
   ("pm2_5", Json.arr [Json.num 5, Json.str "abc" none IsoParse.fail])]

/-- Counterexample to C2: at `cexSeries` with `now = 100`, index 1 is the
most recent past candidate and its value is non-null but not numerically
convertible; the claim predicts the scan continues and yields `some 5`
(index 0 is a valid earlier candidate), but `_last_past_value` returns
`None`. -/
theorem C2_counterexample :
    last_past_value cexSeries "pm2_5" 100 = none ∧
    last_past_value cexSeries "pm2_5" 100 ≠ some 5 ∧
    parse_iso_ts (Json.str "t2" none (IsoParse.naive 20)) = some 20 ∧
    (20 : Int) ≤ 100 ∧
    pyFloat (Json.str "abc" none IsoParse.fail) = none ∧
    parse_iso_ts (Json.str "t1" none (IsoParse.naive 10)) = some 10 ∧
    (10 : Int) ≤ 100 ∧
    pyFloat (Json.num 5) = some 5 := by
  refine ⟨?_, ?_, rfl, by omega, rfl, rfl, by omega, rfl⟩
  · decide
  · decide

/-- C2 (amended): during the backward scan of `_last_past_value`, a
candidate whose timestamp fails to parse or parses to a future instant,
or whose value is null at a past instant, is skipped and the scan
continues to the next earlier index — in particular, with a null value at
the most recent past index the result is the value at the next earlier
valid index, and if every candidate is skipped the result is absent.
However (amending the claim), a candidate at a past instant whose value
is non-null but NOT numerically convertible does not continue the scan:
it aborts it and the result is absent. -/
theorem C2_scan_skip_amended :
    (∀ (key : String) (ts vs : List Json) (t v : Json) (now : Int),
        key ≠ "time" → ts.length = vs.length →
        (parse_iso_ts t = none ∨
          ∃ i, parse_iso_ts t = some i ∧ (now < i ∨ (i ≤ now ∧ v = Json.null))) →
        last_past_value (mkHourly key (ts ++ [t]) (vs ++ [v])) key now
          = last_past_value (mkHourly key ts vs) key now
          ∨ (ts.isEmpty ∧
             last_past_value (mkHourly key (ts ++ [t]) (vs ++ [v])) key now = none)) ∧
    (∀ (key : String) (ts vs : List Json) (t v : Json) (now i : Int),
        key ≠ "time" → ts.length = vs.length →
        parse_iso_ts t = some i → i ≤ now → v ≠ Json.null → pyFloat v = none →
        last_past_value (mkHourly key (ts ++ [t]) (vs ++ [v])) key now = none) ∧
    (∀ (key : String) (ts vs : List Json) (now : Int),
        key ≠ "time" → ∀ hlen : ts.length = vs.length,
        (∀ j (hj : j < ts.length), parse_iso_ts (ts.get ⟨j, hj⟩) = none ∨
          ∃ i, parse_iso_ts (ts.get ⟨j, hj⟩) = some i ∧
            (now < i ∨ (i ≤ now ∧ vs.get ⟨j, hlen ▸ hj⟩ = Json.null))) →
        last_past_value (mkHourly key ts vs) key now = none) ∧
    (∀ (key : String) (ts vs : List Json) (t1 v1 t2 : Json) (now i1 i2 : Int)
        (x : ℚ),
        key ≠ "time" → ts.length = vs.length →
        parse_iso_ts t1 = some i1 → i1 ≤ now → pyFloat v1 = some x →
        parse_iso_ts t2 = some i2 → i2 ≤ now →
        last_past_value (mkHourly key (ts ++ [t1, t2]) (vs ++ [v1, Json.null]))
          key now = some x) := by
  refine ⟨?_, ?_, ?_, ?_⟩
  · intro key ts vs t v now hkey hlen hskip
    have hlen2 : (ts ++ [t]).length = (vs ++ [v]).length := by
      simp [hlen]
    rw [last_past_value_mkHourly key _ _ now hkey hlen2,
      last_past_value_mkHourly key _ _ now hkey hlen]
    have hzip : (ts ++ [t]).zip (vs ++ [v]) = ts.zip vs ++ [(t, v)] := by
      rw [List.zip_append hlen]
      rfl
    have hrev : ((ts ++ [t]).zip (vs ++ [v])).reverse
        = (t, v) :: (ts.zip vs).reverse := by
      rw [hzip]
      simp
    cases hemp : ts.isEmpty
    · left
      have hne : ((ts ++ [t]).isEmpty) = false := by
        cases ts <;> rfl
      rw [hne, if_neg (by simp), if_neg (by simp), hrev]
      exact lpvScan_skip_head t v _ now hskip
    · right
      refine ⟨rfl, ?_⟩
      have hne : ((ts ++ [t]).isEmpty) = false := by
        cases ts <;> rfl
      rw [hne, if_neg (by simp)]
      rw [hrev, lpvScan_skip_head t v _ now hskip]
      have : ts = [] := List.isEmpty_iff.mp hemp
      subst this
      have : vs = [] := by
        cases vs
        · rfl
        · simp at hlen
      subst this
      rfl
  · intro key ts vs t v now i hkey hlen hp hle hnn hv
    have hlen2 : (ts ++ [t]).length = (vs ++ [v]).length := by
      simp [hlen]
    rw [last_past_value_mkHourly key _ _ now hkey hlen2]
    have hne : ((ts ++ [t]).isEmpty) = false := by
      cases ts <;> rfl
    rw [hne, if_neg (by simp)]
    have hzip : (ts ++ [t]).zip (vs ++ [v]) = ts.zip vs ++ [(t, v)] := by
      rw [List.zip_append hlen]
      rfl
    rw [hzip]
    have hrev : (ts.zip vs ++ [(t, v)]).reverse = (t, v) :: (ts.zip vs).reverse := by
      simp
    rw [hrev]
    exact lpvScan_abort t v _ now i hp hle hnn hv
  · intro key ts vs now hkey hlen hall
    rw [last_past_value_mkHourly key _ _ now hkey hlen]
    cases hemp : ts.isEmpty
    · rw [if_neg (by simp)]
      apply lpvScan_all_skip
      intro p hp'
      have hmem : p ∈ ts.zip vs := List.mem_reverse.mp hp'
      obtain ⟨n, hn, hpn⟩ := List.mem_iff_getElem.mp hmem
      have hzl : (ts.zip vs).length = ts.length := by
        rw [List.length_zip, hlen, Nat.min_self]
      have hbound : n < ts.length := hzl ▸ hn
      have hpz : p = (ts.get ⟨n, hbound⟩, vs.get ⟨n, hlen ▸ hbound⟩) := by
        rw [← hpn]
        exact List.getElem_zip
      rw [hpz]
      exact hall n hbound
    · rw [if_pos rfl]
  · intro key ts vs t1 v1 t2 now i1 i2 x hkey hlen hp1 hle1 hv1 hp2 hle2
    have hlen2 : (ts ++ [t1, t2]).length = (vs ++ [v1, Json.null]).length := by
      simp [hlen]
    rw [last_past_value_mkHourly key _ _ now hkey hlen2]
    have hne : ((ts ++ [t1, t2]).isEmpty) = false := by
      cases ts <;> rfl
    rw [hne, if_neg (by simp)]
    have hzip : (ts ++ [t1, t2]).zip (vs ++ [v1, Json.null])
        = ts.zip vs ++ [(t1, v1), (t2, Json.null)] := by
      rw [List.zip_append hlen]
      rfl
    rw [hzip]
    have hrev : (ts.zip vs ++ [(t1, v1), (t2, Json.null)]).reverse
        = (t2, Json.null) :: (t1, v1) :: (ts.zip vs).reverse := by
      simp
    rw [hrev]
    rw [lpvScan_skip_head t2 Json.null _ now
      (Or.inr ⟨i2, hp2, Or.inr ⟨hle2, rfl⟩⟩)]
    exact lpvScan_hit t1 v1 _ now i1 x hp1 hle1 hv1

/-- Witness for the amended C2: with past instants 10 and 20 and values
`[7, None]`, the scan skips the null at the most recent index and
returns 7 from the next earlier valid index. -/
theorem C2_scan_skip_amended_witness :
    last_past_value
        (mkHourly "pm10"
          ([] ++ [Json.str "t1" none (IsoParse.naive 10),
                  Json.str "t2" none (IsoParse.naive 20)])
          ([] ++ [Json.num 7, Json.null])) "pm10" 100 = some 7 :=
  C2_scan_skip_amended.2.2.2 "pm10" [] []
    (Json.str "t1" none (IsoParse.naive 10)) (Json.num 7)
    (Json.str "t2" none (IsoParse.naive 20)) 100 10 20 7
    (by decide) rfl rfl (by omega) rfl rfl (by omega)

/-- A state with a previously published wind-speed value. -/
def mWind7 : ExporterState := { startState with weather_wind_speed_ms := some 7 }

/-- The weather payload refuting C4 as stated: `temperature_2m` is present
with a non-numeric value, `wind_speed_10m` is present and numeric. -/
def cexWeatherPayload : Json :=
  Json.obj [("current", Json.obj
    [("temperature_2m", Json.str "abc" none IsoParse.fail),
     ("wind_speed_10m", Json.num 36)])]

/-- Counterexample to C4: the claim predicts that the non-numeric
`temperature_2m` is a parse failure for that field only and the sibling
`wind_speed_10m` still updates (to 36 km/h / 3.6 = 10 m/s); in the code
the shared `try` aborts on the first field, so the wind gauge keeps its
previous value 7. -/
theorem C4_counterexample :
    (poll_openmeteo_weather mWind7
        ⟨FetchOutcome.ok cexWeatherPayload, 1, 2⟩).1.weather_wind_speed_ms
      = some 7 ∧
    pyFloat (Json.num 36) = some 36 ∧
    (36 : ℚ) / (18 / 5) = 10 ∧
    (7 : ℚ) ≠ 10 := by
  refine ⟨by decide, rfl, by norm_num, by norm_num⟩

/-- C4 (amended): an individual field missing from a response is skipped
silently and the previous value retained, with the sibling fields still
processed; a null field is likewise skipped in the collectors that
null-check (fx, crypto, air-current) but raises in the weather collector
(which does not null-check); a field present with a non-numeric value is
a parse failure that is caught inside the collector (it never escapes to
the loop) and logged — but, amending the claim, it aborts the processing
of the sibling fields AFTER it in the same `try` block: earlier siblings
keep their freshly published values, later siblings retain their previous
values. -/
theorem C4_field_policy_amended :
    (∀ (m : ExporterState) (c : Json) (x : ℚ),
        getFloatField c "temperature_2m" = Except.ok none →
        getFloatField c "wind_speed_10m" = Except.ok (some x) →
        getFloatField c "relative_humidity_2m" = Except.ok none →
        weatherParseCurrent m c = { m with weather_wind_speed_ms := some (x / (18 / 5)) }) ∧
    (∀ (m : ExporterState) (c : Json),
        getFloatField c "temperature_2m" = Except.error () →
        weatherParseCurrent m c = m) ∧
    (∀ (m : ExporterState) (c : Json) (x : ℚ),
        getFloatField c "temperature_2m" = Except.ok (some x) →
        getFloatField c "wind_speed_10m" = Except.error () →
        weatherParseCurrent m c = { m with weather_temperature_c := some x }) ∧
    (∀ (m : ExporterState) (rates : Json) (y : ℚ),
        getFloatFieldNN rates "KZT" = Except.ok none →
        getFloatFieldNN rates "EUR" = Except.ok (some y) →
        fxParseRates m rates = { m with fx_eur_kzt := some y }) ∧
    (∀ (m : ExporterState) (rates : Json),
        getFloatFieldNN rates "KZT" = Except.error () →
        fxParseRates m rates = m) ∧
    (∀ (m : ExporterState) (d : Json) (eth : Option Json),
        jtruthy d = true →
        getFloatFieldNN d "price" = Except.error () →
        cryptoTry m (some d) eth = m) ∧
    (∀ (fs : List (String × Json)) (k : String),
        dictGet fs k = some Json.null →
        getFloatFieldNN (Json.obj fs) k = Except.ok none ∧
        getFloatField (Json.obj fs) k = Except.error ()) ∧
    (∀ (m : ExporterState) (a : FxArgs) (d : Json),
        a.fo = FetchOutcome.ok d → jtruthy d = true →
        jin "rates" d = Except.ok true →
        (poll_fx m a).2 = false) := by
  refine ⟨?_, ?_, ?_, ?_, ?_, ?_, ?_, ?_⟩
  · intro m c x h1 h2 h3
    simp [weatherParseCurrent, h1, h2, h3]
  · intro m c h1
    simp [weatherParseCurrent, h1]
  · intro m c x h1 h2
    simp [weatherParseCurrent, h1, h2]
  · intro m rates y h1 h2
    simp [fxParseRates, h1, h2]
  · intro m rates h1
    simp [fxParseRates, h1]
  · intro m d eth ht h1
    simp [cryptoTry, ht, h1]
  · intro fs k h
    constructor
    · simp [getFloatFieldNN, jin, jindexStr, dictGet] at h ⊢
      rw [h]
      rfl
    · simp [getFloatField, jin, jindexStr, dictGet] at h ⊢
      rw [h]
      rfl
  · intro m a d hfo ht hjin
    rcases a with ⟨fo, el, nw⟩
    simp only at hfo
    subst hfo
    simp only [poll_fx, timed_get]
    rcases hx : jindexStr d "rates" with _ | rates <;> simp [hx, ht, hjin]

/-- Witness for the amended C4 at concrete payloads: a missing
temperature with a numeric wind publishes the wind only; a non-numeric
KZT rate aborts the EUR sibling. -/
theorem C4_field_policy_amended_witness :
    weatherParseCurrent startState (Json.obj [("wind_speed_10m", Json.num 36)])
      = { startState with weather_wind_speed_ms := some ((36 : ℚ) / (18 / 5)) } ∧
    fxParseRates startState
        (Json.obj [("KZT", Json.str "oops" none IsoParse.fail),
                   ("EUR", Json.num 2)])
      = startState := by
  constructor
  · exact C4_field_policy_amended.1 startState
      (Json.obj [("wind_speed_10m", Json.num 36)]) 36 rfl rfl rfl
  · exact C4_field_policy_amended.2.2.2.2.1 startState
      (Json.obj [("KZT", Json.str "oops" none IsoParse.fail),
                 ("EUR", Json.num 2)]) rfl

lemma airParseCurrent_snd (m : ExporterState) (c : Json) :
    (airParseCurrent m c).2 = airCurrentOk c := by
  unfold airParseCurrent airCurrentOk
  rcases h1 : getFloatFieldNN c "pm10" with _ | r1
  · simp [h1]
  · rcases h2 : getFloatFieldNN c "pm2_5" with _ | r2
    · simp [h1, h2]
    · rcases h3 : getFloatFieldNN c "us_aqi" with _ | r3
      · simp [h1, h2, h3]
      · simp [h1, h2, h3]

/-- Air-quality arguments refuting C6 as stated: the current-conditions
request succeeds with the bare JSON number 5, a payload lacking any
"current" section, so the claim predicts exactly one hourly request; in
the code the membership test on the truthy non-container payload raises
`TypeError`, the exception escapes the collector, and no hourly request
is issued. -/
def cexAirArgs : AirArgs :=
  ⟨FetchOutcome.ok (Json.num 5), 1, 2, FetchOutcome.fail 0, 3, 4, 0⟩

/-- Counterexample to C6: with a response lacking the "current" section
(a bare number), no hourly request is issued and the exception escapes. -/
theorem C6_counterexample :
    (poll_openmeteo_air startState cexAirArgs).2.2 = false ∧
    (poll_openmeteo_air startState cexAirArgs).2.1 = true := by
  constructor <;> decide

/-- C6 (amended): when the current-conditions request succeeds with a
complete payload (a truthy payload holding a parseable "current"
section), no hourly request is issued; when the request fails, or its
payload is falsy, or it is an object without a "current" key, or parsing
the "current" section raises inside the `try`, exactly one hourly request
is issued, and — when the hourly response is a truthy payload holding an
"hourly" dict — the Temporal Selector's output is published per field
(pm10, pm2_5, us_aqi), absent selector outputs leaving the previous value.
Amending the claim: a truthy non-dict current payload (e.g. a bare
number, where the membership test raises) or one whose indexing raises
makes the exception escape the collector, and NO hourly request is
issued in that case. -/
theorem C6_air_fallback_amended :
    (∀ (m : ExporterState) (a : AirArgs) (d c : Json),
        a.cur = FetchOutcome.ok d → jtruthy d = true →
        jin "current" d = Except.ok true →
        jindexStr d "current" = Except.ok c →
        airCurrentOk c = true →
        (poll_openmeteo_air m a).2.2 = false ∧
        (poll_openmeteo_air m a).2.1 = false) ∧
    (∀ (m : ExporterState) (a : AirArgs) (e : Nat),
        a.cur = FetchOutcome.fail e → (poll_openmeteo_air m a).2.2 = true) ∧
    (∀ (m : ExporterState) (a : AirArgs) (d : Json),
        a.cur = FetchOutcome.ok d → jtruthy d = false →
        (poll_openmeteo_air m a).2.2 = true) ∧
    (∀ (m : ExporterState) (a : AirArgs) (d : Json),
        a.cur = FetchOutcome.ok d → jtruthy d = true →
        jin "current" d = Except.ok false →
        (poll_openmeteo_air m a).2.2 = true) ∧
    (∀ (m : ExporterState) (a : AirArgs) (d c : Json),
        a.cur = FetchOutcome.ok d → jtruthy d = true →
        jin "current" d = Except.ok true →
        jindexStr d "current" = Except.ok c →
        airCurrentOk c = false →
        (poll_openmeteo_air m a).2.2 = true) ∧
    (∀ (m : ExporterState) (a : AirArgs) (d : Json) (u : Unit),
        a.cur = FetchOutcome.ok d → jtruthy d = true →
        jin "current" d = Except.error u →
        (poll_openmeteo_air m a).2.1 = true ∧
        (poll_openmeteo_air m a).2.2 = false) ∧
    (∀ (m : ExporterState) (a : AirArgs) (e : Nat) (d2 : Json)
        (fs2 : List (String × Json)),
        a.cur = FetchOutcome.fail e → a.hr = FetchOutcome.ok d2 →
        jtruthy d2 = true → jin "hourly" d2 = Except.ok true →
        jindexStr d2 "hourly" = Except.ok (Json.obj fs2) →
        (poll_openmeteo_air m a).1.air_pm10_ugm3
          = onceWrite (last_past_value fs2 "pm10" a.nowUtc) m.air_pm10_ugm3 ∧
        (poll_openmeteo_air m a).1.air_pm25_ugm3
          = onceWrite (last_past_value fs2 "pm2_5" a.nowUtc) m.air_pm25_ugm3 ∧
        (poll_openmeteo_air m a).1.air_us_aqi
          = onceWrite (last_past_value fs2 "us_aqi" a.nowUtc) m.air_us_aqi) := by
  refine ⟨?_, ?_, ?_, ?_, ?_, ?_, ?_⟩
  · intro m a d c hcur ht hjin hx hok
    rcases a with ⟨cur, e1, n1, hr, e2, n2, nu⟩
    simp only at hcur
    subst hcur
    simp only [poll_openmeteo_air, timed_get, ht, hjin, hx, if_true]
    split
    · simp
    · rename_i m3 heq
      have h' := congrArg Prod.snd heq
      rw [airParseCurrent_snd] at h'
      rw [hok] at h'
      simp at h'
  · intro m a e hcur
    rcases a with ⟨cur, e1, n1, hr, e2, n2, nu⟩
    simp only at hcur
    subst hcur
    simp [poll_openmeteo_air, timed_get, tagHourly]
  · intro m a d hcur ht
    rcases a with ⟨cur, e1, n1, hr, e2, n2, nu⟩
    simp only at hcur
    subst hcur
    simp [poll_openmeteo_air, timed_get, tagHourly, ht]
  · intro m a d hcur ht hjin
    rcases a with ⟨cur, e1, n1, hr, e2, n2, nu⟩
    simp only at hcur
    subst hcur
    simp [poll_openmeteo_air, timed_get, tagHourly, ht, hjin]
  · intro m a d c hcur ht hjin hx hok
    rcases a with ⟨cur, e1, n1, hr, e2, n2, nu⟩
    simp only at hcur
    subst hcur
    simp only [poll_openmeteo_air, timed_get, ht, hjin, hx, if_true]
    split
    · rename_i m3 heq
      have h' := congrArg Prod.snd heq
      rw [airParseCurrent_snd] at h'
      rw [hok] at h'
      simp at h'
    · simp [tagHourly]
  · intro m a d u hcur ht hjin
    rcases a with ⟨cur, e1, n1, hr, e2, n2, nu⟩
    simp only at hcur
    subst hcur
    constructor <;> simp [poll_openmeteo_air, timed_get, ht, hjin]
  · intro m a e d2 fs2 hcur hhr ht2 hj2 hx2
    rcases a with ⟨cur, e1, n1, hr, e2, n2, nu⟩
    simp only at hcur hhr
    subst hcur
    subst hhr
    simp only [poll_openmeteo_air, timed_get, tagHourly]
    simp only [air_hourly, timed_get, ht2, hj2, hx2, if_true]
    refine ⟨?_, ?_, ?_⟩ <;>
      simp [airSetHourly, onceWrite, setScrape, observeLatency, incFail,
        incSuccess]

/-- Witness for the amended C6: a failed current request followed by a
well-formed hourly payload publishes the selector output (3) for pm10 and
leaves pm2_5 and us_aqi (whose series are missing) unchanged. -/
theorem C6_air_fallback_amended_witness :
    (poll_openmeteo_air startState
        ⟨FetchOutcome.fail 9, 1, 2,
         FetchOutcome.ok (Json.obj [("hourly", Json.obj
           [("time", Json.arr [Json.str "t0" none (IsoParse.naive 10)]),
            ("pm10", Json.arr [Json.num 3])])]), 3, 4, 100⟩).1.air_pm10_ugm3
      = onceWrite
          (last_past_value
            [("time", Json.arr [Json.str "t0" none (IsoParse.naive 10)]),
             ("pm10", Json.arr [Json.num 3])] "pm10" 100)
          startState.air_pm10_ugm3 :=
  (C6_air_fallback_amended.2.2.2.2.2.2 startState
    ⟨FetchOutcome.fail 9, 1, 2,
     FetchOutcome.ok (Json.obj [("hourly", Json.obj
       [("time", Json.arr [Json.str "t0" none (IsoParse.naive 10)]),
        ("pm10", Json.arr [Json.num 3])])]), 3, 4, 100⟩ 9
    (Json.obj [("hourly", Json.obj
       [("time", Json.arr [Json.str "t0" none (IsoParse.naive 10)]),
        ("pm10", Json.arr [Json.num 3])])])
    [("time", Json.arr [Json.str "t0" none (IsoParse.naive 10)]),
     ("pm10", Json.arr [Json.num 3])]
    rfl rfl rfl rfl rfl).1

/-- The payload component of a fetch outcome. -/
def fetchPayload : FetchOutcome → Option Json
  | FetchOutcome.ok d => some d
  | FetchOutcome.fail _ => none

/-- The bookkeeping prefix of `poll_crypto` (counters, latency, last
scrape for the two requests). -/
def cryptoBk (m : ExporterState) (b e : FetchOutcome) (l1 l2 nb ne' : ℚ) :
    ExporterState :=
  setScrape (observeLatency
    (timed_get
      (setScrape (observeLatency (timed_get m "binance" b l1).2
        "binance" l1) "binance" nb)
      "binance" e l2).2
    "binance" l2) "binance" ne'

lemma poll_crypto_unfold (m : ExporterState) (b e : FetchOutcome)
    (l1 l2 nb ne' : ℚ) :
    poll_crypto m ⟨b, e, l1, l2, nb, ne'⟩
      = (cryptoTry (cryptoBk m b e l1 l2 nb ne')
          (fetchPayload b) (fetchPayload e), false) := by
  cases b <;> cases e <;> rfl

lemma cryptoBk_gauge (m : ExporterState) (b e : FetchOutcome)
    (l1 l2 nb ne' : ℚ) :
    gaugeView (cryptoBk m b e l1 l2 nb ne') = gaugeView m := by
  simp [cryptoBk]

lemma cryptoSetEth_btc (m : ExporterState) (eth : Option Json) :
    (cryptoSetEth m eth).crypto_btc_usd = m.crypto_btc_usd := by
  unfold cryptoSetEth
  rcases eth with _ | d
  · rfl
  · by_cases ht : jtruthy d
    · simp only [ht, if_true]
      rcases h : getFloatFieldNN d "price" with _ | r
      · simp [h]
      · cases r <;> simp [h]
    · simp [ht]

lemma cryptoTry_none_btc (m : ExporterState) (eth : Option Json) :
    (cryptoTry m none eth).crypto_btc_usd = m.crypto_btc_usd :=
  cryptoSetEth_btc m eth

lemma cryptoSetEth_eth (m : ExporterState) (eth : Option Json) :
    (cryptoSetEth m eth).crypto_eth_usd = m.crypto_eth_usd ∨
    ∃ d x, eth = some d ∧ jtruthy d = true ∧
      getFloatFieldNN d "price" = Except.ok (some x) ∧
      (cryptoSetEth m eth).crypto_eth_usd = some x := by
  unfold cryptoSetEth
  rcases eth with _ | d
  · exact Or.inl rfl
  · by_cases ht : jtruthy d
    · simp only [ht, if_true]
      rcases h : getFloatFieldNN d "price" with _ | r
      · exact Or.inl (by simp [h])
      · cases r with
        | none => exact Or.inl (by simp [h])
        | some x =>
            refine Or.inr ⟨d, x, rfl, ht, h, ?_⟩
            simp [h]
    · simp [ht]

lemma cryptoTry_btc (m : ExporterState) (btc eth : Option Json) :
    (cryptoTry m btc eth).crypto_btc_usd = m.crypto_btc_usd ∨
    ∃ d x, btc = some d ∧ jtruthy d = true ∧
      getFloatFieldNN d "price" = Except.ok (some x) ∧
      (cryptoTry m btc eth).crypto_btc_usd = some x := by
  unfold cryptoTry
  rcases btc with _ | d
  · exact Or.inl (cryptoSetEth_btc m eth)
  · by_cases ht : jtruthy d
    · simp only [ht, if_true]
      rcases h : getFloatFieldNN d "price" with _ | r
      · exact Or.inl rfl
      · cases r with
        | none => exact Or.inl (cryptoSetEth_btc m eth)
        | some x =>
            refine Or.inr ⟨d, x, rfl, ht, h, ?_⟩
            rw [cryptoSetEth_btc]
    · simp only [ht, if_false]
      exact Or.inl (cryptoSetEth_btc m eth)

lemma cryptoTry_eth (m : ExporterState) (btc eth : Option Json) :
    (cryptoTry m btc eth).crypto_eth_usd = m.crypto_eth_usd ∨
    ∃ d x, eth = some d ∧ jtruthy d = true ∧
      getFloatFieldNN d "price" = Except.ok (some x) ∧
      (cryptoTry m btc eth).crypto_eth_usd = some x := by
  unfold cryptoTry
  rcases btc with _ | d
  · exact cryptoSetEth_eth m eth
  · by_cases ht : jtruthy d
    · simp only [ht, if_true]
      rcases h : getFloatFieldNN d "price" with _ | r
      · exact Or.inl rfl
      · cases r with
        | none => exact cryptoSetEth_eth m eth
        | some x =>
            have hrest := cryptoSetEth_eth { m with crypto_btc_usd := some x } eth
            simpa using hrest
    · simp only [ht, if_false]
      exact cryptoSetEth_eth m eth

/-- C7: if the BTC request fails and the ETH request succeeds (with a
truthy payload whose price parses), the ETH price metric is updated to
the parsed value and the BTC price metric is left unchanged from its
prior value. More generally (frame property), after any run of the
crypto collector each price gauge either still holds its prior value or
holds a value that was successfully parsed from that pair's own payload —
a failed or partially failed fetch never corrupts or nulls out a
previously published value for a field it did not successfully parse. -/
theorem C7_crypto_frame :
    (∀ (m : ExporterState) (a : CryptoArgs) (e : Nat) (d : Json) (x : ℚ),
        a.btc = FetchOutcome.fail e → a.eth = FetchOutcome.ok d →
        jtruthy d = true → getFloatFieldNN d "price" = Except.ok (some x) →
        (poll_crypto m a).1.crypto_eth_usd = some x ∧
        (poll_crypto m a).1.crypto_btc_usd = m.crypto_btc_usd) ∧
    (∀ (m : ExporterState) (a : CryptoArgs),
        (poll_crypto m a).1.crypto_btc_usd = m.crypto_btc_usd ∨
        ∃ d x, a.btc = FetchOutcome.ok d ∧ jtruthy d = true ∧
          getFloatFieldNN d "price" = Except.ok (some x) ∧
          (poll_crypto m a).1.crypto_btc_usd = some x) ∧
    (∀ (m : ExporterState) (a : CryptoArgs),
        (poll_crypto m a).1.crypto_eth_usd = m.crypto_eth_usd ∨
        ∃ d x, a.eth = FetchOutcome.ok d ∧ jtruthy d = true ∧
          getFloatFieldNN d "price" = Except.ok (some x) ∧
          (poll_crypto m a).1.crypto_eth_usd = some x) := by
  refine ⟨?_, ?_, ?_⟩
  · intro m a e d x hb he ht hx
    rcases a with ⟨b, e2, l1, l2, nb, ne'⟩
    simp only at hb he
    subst hb
    subst he
    rw [poll_crypto_unfold]
    constructor
    · simp [cryptoTry, cryptoSetEth, fetchPayload, ht, hx]
    · have h1 : (cryptoTry (cryptoBk m (FetchOutcome.fail e) (FetchOutcome.ok d)
          l1 l2 nb ne') none (some d)).crypto_btc_usd
          = (cryptoBk m (FetchOutcome.fail e) (FetchOutcome.ok d)
              l1 l2 nb ne').crypto_btc_usd := cryptoTry_none_btc _ _
      have h2 : (cryptoBk m (FetchOutcome.fail e) (FetchOutcome.ok d)
          l1 l2 nb ne').crypto_btc_usd = m.crypto_btc_usd :=
        congrArg GaugeView.btc
          (cryptoBk_gauge m (FetchOutcome.fail e) (FetchOutcome.ok d) l1 l2 nb ne')
      simpa [fetchPayload] using h1.trans h2
  · intro m a
    rcases a with ⟨b, e2, l1, l2, nb, ne'⟩
    rw [poll_crypto_unfold]
    have hbk : (cryptoBk m b e2 l1 l2 nb ne').crypto_btc_usd
        = m.crypto_btc_usd :=
      congrArg GaugeView.btc (cryptoBk_gauge m b e2 l1 l2 nb ne')
    rcases cryptoTry_btc (cryptoBk m b e2 l1 l2 nb ne')
        (fetchPayload b) (fetchPayload e2) with h | ⟨d, x, hd, ht, hx, hres⟩
    · exact Or.inl (h.trans hbk)
    · refine Or.inr ⟨d, x, ?_, ht, hx, hres⟩
      cases b with
      | ok d0 =>
          simp only [fetchPayload] at hd
          rw [Option.some_inj] at hd
          rw [hd]
      | fail e0 => simp [fetchPayload] at hd
  · intro m a
    rcases a with ⟨b, e2, l1, l2, nb, ne'⟩
    rw [poll_crypto_unfold]
    have hbk : (cryptoBk m b e2 l1 l2 nb ne').crypto_eth_usd
        = m.crypto_eth_usd :=
      congrArg GaugeView.eth (cryptoBk_gauge m b e2 l1 l2 nb ne')
    rcases cryptoTry_eth (cryptoBk m b e2 l1 l2 nb ne')
        (fetchPayload b) (fetchPayload e2) with h | ⟨d, x, hd, ht, hx, hres⟩
    · exact Or.inl (h.trans hbk)
    · refine Or.inr ⟨d, x, ?_, ht, hx, hres⟩
      cases e2 with
      | ok d0 =>
          simp only [fetchPayload] at hd
          rw [Option.some_inj] at hd
          rw [hd]
      | fail e0 => simp [fetchPayload] at hd

/-- Witness for C7: BTC request fails, ETH returns price 42 — the ETH
gauge is published and the BTC gauge keeps its start value. -/
theorem C7_crypto_frame_witness :
    (poll_crypto startState
        ⟨FetchOutcome.fail 1,
         FetchOutcome.ok (Json.obj [("price", Json.num 42)]),
         1, 2, 3, 4⟩).1.crypto_eth_usd = some 42 ∧
    (poll_crypto startState
        ⟨FetchOutcome.fail 1,
         FetchOutcome.ok (Json.obj [("price", Json.num 42)]),
         1, 2, 3, 4⟩).1.crypto_btc_usd = startState.crypto_btc_usd :=
  C7_crypto_frame.1 startState
    ⟨FetchOutcome.fail 1, FetchOutcome.ok (Json.obj [("price", Json.num 42)]),
     1, 2, 3, 4⟩ 1 (Json.obj [("price", Json.num 42)]) 42 rfl rfl rfl rfl

@[simp] lemma onceWrite_none (x : Option ℚ) : onceWrite none x = x := rfl

@[simp] lemma onceWrite_some (v : ℚ) (x : Option ℚ) :
    onceWrite (some v) x = some v := rfl

lemma onceWrite_assoc (a b x : Option ℚ) :
    onceWrite b (onceWrite a x) = onceWrite (onceWrite b a) x := by
  cases a <;> cases b <;> simp

/-- The data-gauge writes one collector run performs: `some x` replaces
the gauge with `x`, `none` leaves it alone. -/
structure GWrite where
  wt : Option ℚ
  ww : Option ℚ
  wh : Option ℚ
  p10 : Option ℚ
  p25 : Option ℚ
  aqi : Option ℚ
  kzt : Option ℚ
  eur : Option ℚ
  btc : Option ℚ
  eth : Option ℚ
deriving DecidableEq, Repr

/-- Apply a write set to the gauge view (the labelled tag gauge is not
written by any of the collectors concerned). -/
def applyW (w : GWrite) (g : GaugeView) : GaugeView :=
  { wt := onceWrite w.wt g.wt
    ww := onceWrite w.ww g.ww
    wh := onceWrite w.wh g.wh
    p10 := onceWrite w.p10 g.p10
    p25 := onceWrite w.p25 g.p25
    aqi := onceWrite w.aqi g.aqi
    kzt := onceWrite w.kzt g.kzt
    eur := onceWrite w.eur g.eur
    btc := onceWrite w.btc g.btc
    eth := onceWrite w.eth g.eth
    tags := g.tags }

/-- The empty write set. -/
def noneW : GWrite :=
  { wt := none, ww := none, wh := none, p10 := none, p25 := none,
    aqi := none, kzt := none, eur := none, btc := none, eth := none }

@[simp] lemma applyW_none (g : GaugeView) : applyW noneW g = g := rfl

/-- Sequential composition of two write sets (the later write wins). -/
def wComp (w2 w1 : GWrite) : GWrite :=
  { wt := onceWrite w2.wt w1.wt
    ww := onceWrite w2.ww w1.ww
    wh := onceWrite w2.wh w1.wh
    p10 := onceWrite w2.p10 w1.p10
    p25 := onceWrite w2.p25 w1.p25
    aqi := onceWrite w2.aqi w1.aqi
    kzt := onceWrite w2.kzt w1.kzt
    eur := onceWrite w2.eur w1.eur
    btc := onceWrite w2.btc w1.btc
    eth := onceWrite w2.eth w1.eth }

lemma applyW_comp (w2 w1 : GWrite) (g : GaugeView) :
    applyW w2 (applyW w1 g) = applyW (wComp w2 w1) g := by
  simp [applyW, wComp, onceWrite_assoc]

lemma applyW_idem (w : GWrite) (g : GaugeView) :
    applyW w (applyW w g) = applyW w g := by
  have h : ∀ a x : Option ℚ, onceWrite a (onceWrite a x) = onceWrite a x := by
    intro a x
    cases a <;> simp
  simp [applyW, h]

/-- The write set of the weather `try` block, as decided by the payload
alone (the abort-on-exception coupling of the three fields included). -/
def wpcW (c : Json) : GWrite :=
  { noneW with
    wt := match getFloatField c "temperature_2m" with
          | Except.ok (some x) => some x
          | _ => none
    ww := match getFloatField c "temperature_2m" with
          | Except.error _ => none
          | Except.ok _ =>
              match getFloatField c "wind_speed_10m" with
              | Except.ok (some x) => some (x / (18 / 5))
              | _ => none
    wh := match getFloatField c "temperature_2m" with
          | Except.error _ => none
          | Except.ok _ =>
              match getFloatField c "wind_speed_10m" with
              | Except.error _ => none
              | Except.ok _ =>
                  match getFloatField c "relative_humidity_2m" with
                  | Except.ok (some x) => some x
                  | _ => none }

lemma wpc_gauge (m : ExporterState) (c : Json) :
    gaugeView (weatherParseCurrent m c) = applyW (wpcW c) (gaugeView m) := by
  unfold weatherParseCurrent wpcW
  rcases h1 : getFloatField c "temperature_2m" with _ | r1
  · simp [h1, applyW, noneW, gaugeView]
  · rcases h2 : getFloatField c "wind_speed_10m" with _ | r2
    · cases r1 <;> simp [h1, h2, applyW, noneW, gaugeView]
    · rcases h3 : getFloatField c "relative_humidity_2m" with _ | r3
      · cases r1 <;> cases r2 <;> simp [h1, h2, h3, applyW, noneW, gaugeView]
      · cases r1 <;> cases r2 <;> cases r3 <;>
          simp [h1, h2, h3, applyW, noneW, gaugeView]

/-- The write set of the fx `try` block. -/
def fxW (rates : Json) : GWrite :=
  { noneW with
    kzt := match getFloatFieldNN rates "KZT" with
           | Except.ok (some x) => some x
           | _ => none
    eur := match getFloatFieldNN rates "KZT" with
           | Except.error _ => none
           | Except.ok _ =>
               match getFloatFieldNN rates "EUR" with
               | Except.ok (some y) => some y
               | _ => none }

lemma fx_gauge (m : ExporterState) (rates : Json) :
    gaugeView (fxParseRates m rates) = applyW (fxW rates) (gaugeView m) := by
  unfold fxParseRates fxW
  rcases h1 : getFloatFieldNN rates "KZT" with _ | r1
  · simp [h1, applyW, noneW, gaugeView]
  · rcases h2 : getFloatFieldNN rates "EUR" with _ | r2
    · cases r1 <;> simp [h1, h2, applyW, noneW, gaugeView]
    · cases r1 <;> cases r2 <;> simp [h1, h2, applyW, noneW, gaugeView]

/-- The ETH-side write decision of the crypto `try` block. -/
def ethDec (eth : Option Json) : Option ℚ :=
  match eth with
  | some d =>
      if jtruthy d then
        match getFloatFieldNN d "price" with
        | Except.ok (some x) => some x
        | _ => none
      else none
  | none => none

/-- The write set of the crypto `try` block: the ETH line only runs when
processing the BTC payload did not raise. -/
def ctW (btc eth : Option Json) : GWrite :=
  { noneW with
    btc := match btc with
           | some d =>
               if jtruthy d then
                 match getFloatFieldNN d "price" with
                 | Except.ok (some x) => some x
                 | _ => none
               else none
           | none => none
    eth := match btc with
           | some d =>
               if jtruthy d then
                 match getFloatFieldNN d "price" with
                 | Except.error _ => none
                 | Except.ok _ => ethDec eth
               else ethDec eth
           | none => ethDec eth }

lemma cryptoSetEth_gauge (m : ExporterState) (eth : Option Json) :
    gaugeView (cryptoSetEth m eth)
      = applyW { noneW with eth := ethDec eth } (gaugeView m) := by
  unfold cryptoSetEth ethDec
  rcases eth with _ | d
  · simp [applyW, noneW, gaugeView]
  · by_cases ht : jtruthy d
    · simp only [ht, if_true]
      rcases h : getFloatFieldNN d "price" with _ | r
      · simp [h, applyW, noneW, gaugeView]
      · cases r <;> simp [h, applyW, noneW, gaugeView]
    · simp [ht, applyW, noneW, gaugeView]

lemma ct_gauge (m : ExporterState) (btc eth : Option Json) :
    gaugeView (cryptoTry m btc eth) = applyW (ctW btc eth) (gaugeView m) := by
  unfold cryptoTry ctW
  rcases btc with _ | d
  · rw [cryptoSetEth_gauge]
    rfl
  · cases ht : jtruthy d
    · simp only [ht, Bool.false_eq_true, if_false]
      rw [cryptoSetEth_gauge]
      rfl
    · simp only [ht, if_true]
      rcases h : getFloatFieldNN d "price" with _ | r
      · simp [h, applyW, noneW, gaugeView]
      · cases r with
        | none =>
            rw [cryptoSetEth_gauge]
            rfl
        | some x =>
            rw [cryptoSetEth_gauge]
            simp [h, applyW, noneW, gaugeView]

/-- The write set of the air-quality `current` `try` block. -/
def apcW (c : Json) : GWrite :=
  { noneW with
    p10 := match getFloatFieldNN c "pm10" with
           | Except.ok (some x) => some x
           | _ => none
    p25 := match getFloatFieldNN c "pm10" with
           | Except.error _ => none
           | Except.ok _ =>
               match getFloatFieldNN c "pm2_5" with
               | Except.ok (some x) => some x
               | _ => none
    aqi := match getFloatFieldNN c "pm10" with
           | Except.error _ => none
           | Except.ok _ =>
               match getFloatFieldNN c "pm2_5" with
               | Except.error _ => none
               | Except.ok _ =>
                   match getFloatFieldNN c "us_aqi" with
                   | Except.ok (some x) => some x
                   | _ => none }

lemma apc_gauge (m : ExporterState) (c : Json) :
    gaugeView (airParseCurrent m c).1 = applyW (apcW c) (gaugeView m) := by
  unfold airParseCurrent apcW
  rcases h1 : getFloatFieldNN c "pm10" with _ | r1
  · simp [h1, applyW, noneW, gaugeView]
  · rcases h2 : getFloatFieldNN c "pm2_5" with _ | r2
    · cases r1 <;> simp [h1, h2, applyW, noneW, gaugeView]
    · rcases h3 : getFloatFieldNN c "us_aqi" with _ | r3
      · cases r1 <;> cases r2 <;> simp [h1, h2, h3, applyW, noneW, gaugeView]
      · cases r1 <;> cases r2 <;> cases r3 <;>
          simp [h1, h2, h3, applyW, noneW, gaugeView]

/-- The write set of the hourly fallback's temporal-selector publication. -/
def ashW (fs : List (String × Json)) (nowUtc : Int) : GWrite :=
  { noneW with
    p10 := last_past_value fs "pm10" nowUtc
    p25 := last_past_value fs "pm2_5" nowUtc
    aqi := last_past_value fs "us_aqi" nowUtc }

lemma ash_gauge (m : ExporterState) (fs : List (String × Json)) (nowUtc : Int) :
    gaugeView (airSetHourly m fs nowUtc) = applyW (ashW fs nowUtc) (gaugeView m) := by
  unfold airSetHourly ashW
  cases last_past_value fs "pm10" nowUtc <;>
    cases last_past_value fs "pm2_5" nowUtc <;>
      cases last_past_value fs "us_aqi" nowUtc <;>
        simp [applyW, noneW, gaugeView, onceWrite]

/-- Each run of the hourly fallback applies one payload-determined write
set to the data gauges. -/
lemma air_hourly_write (a : AirArgs) :
    ∃ w, ∀ m : ExporterState,
      gaugeView (air_hourly m a).1 = applyW w (gaugeView m) := by
  rcases a with ⟨cur, e1, n1, hr, e2, n2, nu⟩
  cases hr with
  | fail e =>
      refine ⟨noneW, fun m => ?_⟩
      simp [air_hourly, timed_get]
  | ok d =>
      cases ht : jtruthy d
      · refine ⟨noneW, fun m => ?_⟩
        simp [air_hourly, timed_get, ht]
      · rcases hj : jin "hourly" d with _ | b
        · refine ⟨noneW, fun m => ?_⟩
          simp [air_hourly, timed_get, ht, hj]
        · cases b
          · refine ⟨noneW, fun m => ?_⟩
            simp [air_hourly, timed_get, ht, hj]
          · rcases hx : jindexStr d "hourly" with _ | h
            · refine ⟨noneW, fun m => ?_⟩
              simp [air_hourly, timed_get, ht, hj, hx]
            · cases h with
              | obj fs =>
                  refine ⟨ashW fs nu, fun m => ?_⟩
                  simp only [air_hourly, timed_get, ht, hj, hx, if_true]
                  rw [ash_gauge]
                  simp
              | null =>
                  refine ⟨noneW, fun m => ?_⟩
                  simp [air_hourly, timed_get, ht, hj, hx]
              | bool b2 =>
                  refine ⟨noneW, fun m => ?_⟩
                  simp [air_hourly, timed_get, ht, hj, hx]
              | num q =>
                  refine ⟨noneW, fun m => ?_⟩
                  simp [air_hourly, timed_get, ht, hj, hx]
              | str s cv iso =>
                  refine ⟨noneW, fun m => ?_⟩
                  simp [air_hourly, timed_get, ht, hj, hx]
              | arr xs =>
                  refine ⟨noneW, fun m => ?_⟩
                  simp [air_hourly, timed_get, ht, hj, hx]

/-- Each run of the weather collector applies one payload-determined
write set to the data gauges. -/
lemma poll_weather_write (a : WeatherArgs) :
    ∃ w, ∀ m : ExporterState,
      gaugeView (poll_openmeteo_weather m a).1 = applyW w (gaugeView m) := by
  rcases a with ⟨fo, el, nw⟩
  cases fo with
  | fail e =>
      refine ⟨noneW, fun m => ?_⟩
      simp [poll_openmeteo_weather, timed_get]
  | ok d =>
      cases ht : jtruthy d
      · refine ⟨noneW, fun m => ?_⟩
        simp [poll_openmeteo_weather, timed_get, ht]
      · rcases hj : jin "current" d with _ | b
        · refine ⟨noneW, fun m => ?_⟩
          simp [poll_openmeteo_weather, timed_get, ht, hj]
        · cases b
          · refine ⟨noneW, fun m => ?_⟩
            simp [poll_openmeteo_weather, timed_get, ht, hj]
          · rcases hx : jindexStr d "current" with _ | c
            · refine ⟨noneW, fun m => ?_⟩
              simp [poll_openmeteo_weather, timed_get, ht, hj, hx]
            · refine ⟨wpcW c, fun m => ?_⟩
              simp only [poll_openmeteo_weather, timed_get, ht, hj, hx, if_true]
              rw [wpc_gauge]
              simp

/-- Each run of the fx collector applies one payload-determined write set
to the data gauges. -/
lemma poll_fx_write (a : FxArgs) :
    ∃ w, ∀ m : ExporterState,
      gaugeView (poll_fx m a).1 = applyW w (gaugeView m) := by
  rcases a with ⟨fo, el, nw⟩
  cases fo with
  | fail e =>
      refine ⟨noneW, fun m => ?_⟩
      simp [poll_fx, timed_get]
  | ok d =>
      cases ht : jtruthy d
      · refine ⟨noneW, fun m => ?_⟩
        simp [poll_fx, timed_get, ht]
      · rcases hj : jin "rates" d with _ | b
        · refine ⟨noneW, fun m => ?_⟩
          simp [poll_fx, timed_get, ht, hj]
        · cases b
          · refine ⟨noneW, fun m => ?_⟩
            simp [poll_fx, timed_get, ht, hj]
          · rcases hx : jindexStr d "rates" with _ | rates
            · refine ⟨noneW, fun m => ?_⟩
              simp [poll_fx, timed_get, ht, hj, hx]
            · refine ⟨fxW rates, fun m => ?_⟩
              simp only [poll_fx, timed_get, ht, hj, hx, if_true]
              rw [fx_gauge]
              simp

/-- Each run of the crypto collector applies one payload-determined write
set to the data gauges. -/
lemma poll_crypto_write (a : CryptoArgs) :
    ∃ w, ∀ m : ExporterState,
      gaugeView (poll_crypto m a).1 = applyW w (gaugeView m) := by
  rcases a with ⟨b, e2, l1, l2, nb, ne'⟩
  refine ⟨ctW (fetchPayload b) (fetchPayload e2), fun m => ?_⟩
  rw [poll_crypto_unfold]
  show gaugeView (cryptoTry (cryptoBk m b e2 l1 l2 nb ne')
    (fetchPayload b) (fetchPayload e2)) = _
  rw [ct_gauge, cryptoBk_gauge]

/-- Each run of the air-quality collector applies one payload-determined
write set to the data gauges. -/
lemma poll_air_write (a : AirArgs) :
    ∃ w, ∀ m : ExporterState,
      gaugeView (poll_openmeteo_air m a).1 = applyW w (gaugeView m) := by
  obtain ⟨wh, hwh⟩ := air_hourly_write a
  cases hcur : a.cur with
  | fail e =>
      refine ⟨wh, fun m => ?_⟩
      simp only [poll_openmeteo_air, timed_get, hcur, tagHourly]
      rw [hwh]
      simp
  | ok d =>
      cases ht : jtruthy d
      · refine ⟨wh, fun m => ?_⟩
        simp only [poll_openmeteo_air, timed_get, hcur, ht, Bool.false_eq_true,
          if_false, tagHourly]
        rw [hwh]
        simp
      · rcases hj : jin "current" d with _ | b
        · refine ⟨noneW, fun m => ?_⟩
          simp only [poll_openmeteo_air, timed_get, hcur, ht, if_true, hj]
          simp
        · cases b
          · refine ⟨wh, fun m => ?_⟩
            simp only [poll_openmeteo_air, timed_get, hcur, ht, if_true, hj,
              tagHourly]
            rw [hwh]
            simp
          · rcases hx : jindexStr d "current" with _ | c
            · refine ⟨noneW, fun m => ?_⟩
              simp only [poll_openmeteo_air, timed_get, hcur, ht, if_true, hj, hx]
              simp
            · by_cases hok : airCurrentOk c = true
              · refine ⟨apcW c, fun m => ?_⟩
                simp only [poll_openmeteo_air, timed_get, hcur, ht, if_true,
                  hj, hx]
                split
                · rename_i m3 heq
                  have h3 := congrArg (fun p => gaugeView p.1) heq
                  simp only at h3
                  rw [apc_gauge] at h3
                  rw [← h3]
                  simp
                · rename_i m3 heq
                  have h' := congrArg Prod.snd heq
                  rw [airParseCurrent_snd] at h'
                  rw [hok] at h'
                  simp at h'
              · refine ⟨wComp wh (apcW c), fun m => ?_⟩
                simp only [poll_openmeteo_air, timed_get, hcur, ht, if_true,
                  hj, hx]
                split
                · rename_i m3 heq
                  have h' := congrArg Prod.snd heq
                  rw [airParseCurrent_snd] at h'
                  have h'' : airCurrentOk c = true := by
                    simpa using h'.symm
                  exact absurd h'' hok
                · rename_i m3 heq
                  have h3 := congrArg (fun p => gaugeView p.1) heq
                  simp only at h3
                  rw [apc_gauge] at h3
                  simp only [tagHourly]
                  rw [hwh, ← h3, applyW_comp]
                  simp

/-- C9: for every collector and every payload, running the same fetch
twice with identical inputs yields the same data-gauge MetricPoint values
as running it once — gauge values are replaced, never accumulated. For
the four unconditioned collectors this follows because one run applies a
single payload-determined write set to the gauges and such write sets are
idempotent; for the rate-gated tag collector the second identical call is
a no-op (its gate timestamp now equals the call time), so the state is
unchanged entirely. -/
theorem C9_idempotent_publish :
    (∀ (m : ExporterState) (a : WeatherArgs),
        gaugeView (poll_openmeteo_weather (poll_openmeteo_weather m a).1 a).1
          = gaugeView (poll_openmeteo_weather m a).1) ∧
    (∀ (m : ExporterState) (a : AirArgs),
        gaugeView (poll_openmeteo_air (poll_openmeteo_air m a).1 a).1
          = gaugeView (poll_openmeteo_air m a).1) ∧
    (∀ (m : ExporterState) (a : FxArgs),
        gaugeView (poll_fx (poll_fx m a).1 a).1 = gaugeView (poll_fx m a).1) ∧
    (∀ (m : ExporterState) (a : CryptoArgs),
        gaugeView (poll_crypto (poll_crypto m a).1 a).1
          = gaugeView (poll_crypto m a).1) ∧
    (∀ (m : ExporterState) (a : SOArgs),
        gaugeView (poll_stackoverflow (poll_stackoverflow m a).1 a).1
          = gaugeView (poll_stackoverflow m a).1) := by
  refine ⟨?_, ?_, ?_, ?_, ?_⟩
  · intro m a
    obtain ⟨w, hw⟩ := poll_weather_write a
    rw [hw, hw, applyW_idem]
  · intro m a
    obtain ⟨w, hw⟩ := poll_air_write a
    rw [hw, hw, applyW_idem]
  · intro m a
    obtain ⟨w, hw⟩ := poll_fx_write a
    rw [hw, hw, applyW_idem]
  · intro m a
    obtain ⟨w, hw⟩ := poll_crypto_write a
    rw [hw, hw, applyW_idem]
  · intro m a
    by_cases h : a.now - m.last_so_poll < SO_MIN_PERIOD
    · have h1 := so_gate_noop m a h
      rw [h1]
      show gaugeView (poll_stackoverflow m a).1 = gaugeView m
      rw [h1]
    · have hl := (so_gate_pass m a h).1
      have h2 : a.now - (poll_stackoverflow m a).1.last_so_poll
          < SO_MIN_PERIOD := by
        rw [hl]
        norm_num [SO_MIN_PERIOD]
      rw [so_gate_noop _ a h2]
